import Mathlib

/-!
Shallow embedding of the core of the `buses-electricos` simulator
(`src/src/model/...`), over exact rational arithmetic.

Python runtime errors (`ValueError`, `ZeroDivisionError`) are modelled with
`Except String`; a Python float division `a / b` is embedded as `pyDiv a b`,
which raises exactly when the denominator is zero, as CPython does.
Wall-clock readings (`time.time()` in `battery.py`) are modelled by an
explicit clock stream `ℕ → ℚ` together with a read counter stored in the
battery state, so that each `time()` call consumes the next reading.
-/

/-- Message of a Python `ZeroDivisionError`. -/
def zeroDivMsg : String :=
  "ZeroDivisionError"

/-- Message of the `ValueError` raised for a non-positive power. -/
def powerErrMsg : String :=
  "ValueError: La potencia debe ser mayor que 0."

/-- Message of the `ValueError` raised for a non-positive time. -/
def timeErrMsg : String :=
  "ValueError: El tiempo en segundos debe ser mayor que 0."

/-- Python float division: raises `ZeroDivisionError` when the denominator
is zero, otherwise returns the exact quotient. -/
def pyDiv (a b : ℚ) : Except String ℚ :=
  if b = 0 then .error zeroDivMsg else .ok (a / b)

/-- Python's builtin `abs`; defined by cases so that concrete values reduce. -/
def pyAbs (q : ℚ) : ℚ :=
  if q < 0 then -q else q

/-- Python's builtin `min` on two floats. -/
def pyMin (a b : ℚ) : ℚ :=
  if a ≤ b then a else b

/-- Python's builtin `max` on two floats. -/
def pyMax (a b : ℚ) : ℚ :=
  if a ≤ b then b else a

theorem pyAbs_eq_abs (q : ℚ) : pyAbs q = |q| := by
  unfold pyAbs
  rcases lt_trichotomy q 0 with h | h | h
  · simp [h, abs_of_neg h]
  · simp [h]
  · simp [not_lt.mpr h.le, abs_of_pos h]

theorem pyMin_eq_min (a b : ℚ) : pyMin a b = min a b := by
  unfold pyMin
  split
  · exact (min_eq_left (by assumption)).symm
  · exact (min_eq_right (not_le.mp (by assumption)).le).symm

theorem pyMax_eq_max (a b : ℚ) : pyMax a b = max a b := by
  unfold pyMax
  split
  · exact (max_eq_right (by assumption)).symm
  · exact (max_eq_left (not_le.mp (by assumption)).le).symm

/-- State of `Battery` (`battery.py`).  Fields mirror the attributes set in
`Battery.__init__`; `clockIdx` is the model's counter of `time.time()` calls. -/
structure Battery where
  voltage : ℚ
  initialCapacityAh : ℚ
  currentCapacityAh : ℚ
  maxCycles : ℚ
  completedCycles : ℚ
  stateOfChargePercent : ℚ
  minStateOfHealth : ℚ
  degradationInSection : ℚ
  minBatteryCharge : ℚ
  timerStart : Option ℚ
  totalTimeBelowMinSoc : ℚ
  clockIdx : ℕ
  deriving Repr, DecidableEq

/-- Embeds `Battery.degradation_rate` property. -/
def Battery.degradation_rate (b : Battery) : Except String ℚ := do
  let initialStateOfHealth : ℚ := 100
  let allowedHealthLoss := initialStateOfHealth - b.minStateOfHealth
  let r ← pyDiv allowedHealthLoss b.maxCycles
  return r / 100

/-- Embeds `Battery.state_of_health` property. -/
def Battery.state_of_health (b : Battery) : Except String ℚ := do
  let rate ← b.degradation_rate
  let healthLoss := b.completedCycles * rate
  return 1 - healthLoss

/-- Embeds `Battery._get_soc_in_ah`. -/
def Battery.get_soc_in_ah (b : Battery) : ℚ :=
  b.currentCapacityAh * (b.stateOfChargePercent / 100)

/-- Embeds `Battery._compute_new_soc`: bounds the new SOC above by the current
capacity but (per the source comment) does not handle negative SOC values. -/
def Battery.compute_new_soc (b : Battery) (ahTransferred : ℚ) : Except String ℚ := do
  let currentSocAh := b.get_soc_in_ah
  let updatedSocInAh := pyMin (currentSocAh - ahTransferred) b.currentCapacityAh
  let q ← pyDiv updatedSocInAh b.currentCapacityAh
  return q * 100

/-- The `ValueError` message of `Battery._calculate_current` when neither a
truthy `power` nor a truthy `ah_transferred`/`time_seconds` pair is given. -/
def missingArgsMsg : String :=
  "ValueError: Debe proporcionar power, o ambos ah_transferred y time_seconds para calcular la intensidad."

/-- Embeds `Battery._calculate_current`.  The three keyword arguments default to
`None`; Python's truthiness makes `0` behave exactly like a missing
argument, which is why each branch tests `getD 0 ≠ 0`. -/
def Battery.calculate_current (b : Battery)
    (ahTransferred timeSeconds power : Option ℚ) : Except String ℚ :=
  if power.getD 0 ≠ 0 then
    if power.getD 0 ≤ 0 then
      .error powerErrMsg
    else
      pyDiv (power.getD 0) b.voltage
  else if ahTransferred.getD 0 ≠ 0 ∧ timeSeconds.getD 0 ≠ 0 then
    if timeSeconds.getD 0 ≤ 0 then
      .error timeErrMsg
    else
      pyDiv (ahTransferred.getD 0) (timeSeconds.getD 0 / 3600)
  else
    .error missingArgsMsg

/-- Embeds `Battery._is_charging`: a negative current means the battery charges. -/
def Battery.is_charging (electricCurrent : ℚ) : Bool :=
  electricCurrent < 0

/-- Embeds `Battery._calculate_charging_degradation`. -/
def Battery.calculate_charging_degradation (socPercent : ℚ) : ℚ :=
  let m : ℚ := 2/100
  if socPercent < 80 then 1005/1000 else 1005/1000 + m * (socPercent - 80)

/-- Embeds `Battery._calculate_discharging_degradation`. -/
def Battery.calculate_discharging_degradation (socPercent : ℚ) : ℚ :=
  let m : ℚ := 2/100
  if socPercent > 20 then 105/100 else 105/100 + m * (20 - socPercent)

/-- Embeds `Battery._soc_degradation_factor`. -/
def Battery.soc_degradation_factor (socPercent electricCurrent : ℚ) : ℚ :=
  if Battery.is_charging electricCurrent then
    Battery.calculate_charging_degradation socPercent
  else
    Battery.calculate_discharging_degradation socPercent

/-- Embeds `Battery._electric_current_degradation_factor`. -/
def Battery.electric_current_degradation_factor (electricCurrent : ℚ) : ℚ :=
  let m : ℚ := 2/10000
  if Battery.is_charging electricCurrent then
    1 + m * electricCurrent
  else
    1 + m * pyAbs electricCurrent

/-- Embeds `Battery._increase_completed_cycles`. -/
def Battery.increase_completed_cycles (b : Battery)
    (initialSocPercent finalSocPercent factor : ℚ) : Except String Battery := do
  let cycleIncrement := pyAbs (initialSocPercent - finalSocPercent) / 100
  let b := { b with completedCycles := b.completedCycles + cycleIncrement * factor }
  let d ← pyDiv cycleIncrement b.maxCycles
  return { b with degradationInSection := d }

/-- Embeds `Battery._apply_degradation`. -/
def Battery.apply_degradation (b : Battery)
    (updatedSocPercent electricCurrent : ℚ) : Except String Battery := do
  let initialSocPercent := b.stateOfChargePercent
  let socFactor := Battery.soc_degradation_factor updatedSocPercent electricCurrent
  let electricCurrentFactor :=
    Battery.electric_current_degradation_factor electricCurrent
  let adjustedDegradationFactor := socFactor * electricCurrentFactor
  let b ← b.increase_completed_cycles initialSocPercent updatedSocPercent
    adjustedDegradationFactor
  let soh ← b.state_of_health
  return { b with currentCapacityAh := b.initialCapacityAh * soh }

/-- Embeds `Battery.check_soc_under_minimum`; `clock i` is the value of the `i`-th
`time.time()` call. -/
def Battery.check_soc_under_minimum (b : Battery) (clock : ℕ → ℚ)
    (socPercent : ℚ) : Battery :=
  if socPercent < b.minBatteryCharge then
    match b.timerStart with
    | none =>
        { b with timerStart := some (clock b.clockIdx), clockIdx := b.clockIdx + 1 }
    | some _ => b
  else
    match b.timerStart with
    | some ts =>
        { b with
          totalTimeBelowMinSoc := b.totalTimeBelowMinSoc + (clock b.clockIdx - ts),
          timerStart := none,
          clockIdx := b.clockIdx + 1 }
    | none => b

/-- Embeds `Battery.update_soc_and_degradation`.  On error the battery keeps its
previous state, matching the source where every field assignment happens
after the call to `_calculate_current` that may raise. -/
def Battery.update_soc_and_degradation (b : Battery) (clock : ℕ → ℚ)
    (ahTransferred timeSeconds : ℚ) : Except String Battery := do
  let updatedSocPercent ← b.compute_new_soc ahTransferred
  let electricCurrent ←
    b.calculate_current (some ahTransferred) (some timeSeconds) none
  let b ← b.apply_degradation updatedSocPercent electricCurrent
  let b := { b with stateOfChargePercent := updatedSocPercent }
  return b.check_soc_under_minimum clock b.stateOfChargePercent

/-- Embeds `Battery._calculate_time_to_charge`. -/
def Battery.calculate_time_to_charge (b : Battery)
    (power desiredSoc : ℚ) : Except String ℚ :=
  if power ≤ 0 then .error powerErrMsg
  else do
    let desiredSocAh := (desiredSoc / 100) * b.currentCapacityAh
    let chargeNeeded := desiredSocAh - b.get_soc_in_ah
    let q ← pyDiv (chargeNeeded * b.voltage) power
    return q * 3600

/-- Embeds `Battery.charge_in_charging_point`: returns the charging time together
with the updated battery. -/
def Battery.charge_in_charging_point (b : Battery) (clock : ℕ → ℚ)
    (power desiredSoc : ℚ) : Except String (ℚ × Battery) := do
  let timeSeconds ← b.calculate_time_to_charge power desiredSoc
  let cur ← b.calculate_current none none (some power)
  let ahTransferred := cur * (timeSeconds / 3600)
  let b ← b.update_soc_and_degradation clock (-ahTransferred) timeSeconds
  return (timeSeconds, b)

/-- The two battery operations quantified over by the SOC-bounds claim. -/
inductive BatteryOp where
  | drive (ahTransferred timeSeconds : ℚ)
  | chargeAt (power desiredSoc : ℚ)
  deriving Repr, DecidableEq

/-- Apply one battery operation (drive update or charging-point charge). -/
def Battery.apply_op (b : Battery) (clock : ℕ → ℚ) : BatteryOp → Except String Battery
  | .drive ah t => b.update_soc_and_degradation clock ah t
  | .chargeAt p d => (·.2) <$> b.charge_in_charging_point clock p d

/-- Apply a finite sequence of battery operations in order. -/
def Battery.apply_ops (b : Battery) (clock : ℕ → ℚ) : List BatteryOp → Except String Battery
  | [] => .ok b
  | op :: rest => do
    let b ← b.apply_op clock op
    b.apply_ops clock rest

/-- Embeds `BaseEngine` data plus the battery of `ElectricalEngine`
(`base_engine.py`, `electrical_engine.py`).  `maxPower` is stored in Watts,
as `BaseEngine.__init__` does after its `* 1000` conversion. -/
structure ElectricalEngine where
  maxPower : ℚ
  efficiency : ℚ
  battery : Battery
  deriving Repr, DecidableEq

/-- Embeds `BaseEngine._adjust_power`. -/
def ElectricalEngine.adjust_power (e : ElectricalEngine) (power : ℚ) : ℚ :=
  if power ≤ e.maxPower then power * e.efficiency
  else e.maxPower * e.efficiency

/-- The dict returned by `ElectricalEngine.consumption`. -/
structure Consumption where
  wh : ℚ
  ah : ℚ
  lPerHour : ℚ
  lPerKm : ℚ
  deriving Repr, DecidableEq

/-- Embeds `ElectricalEngine.consumption`: computes Wh/Ah for a section and drives
the battery update as a side effect. -/
def ElectricalEngine.consumption (e : ElectricalEngine) (clock : ℕ → ℚ)
    (power time : ℚ) : Except String (Consumption × ElectricalEngine) := do
  let power := e.adjust_power power
  let hours := time / 3600
  let wattsHour := power * hours
  let ampersHour ← pyDiv wattsHour e.battery.voltage
  let b ← e.battery.update_soc_and_degradation clock ampersHour time
  return ({ wh := wattsHour, ah := ampersHour, lPerHour := 0, lPerKm := 0 },
          { e with battery := b })

/-- State of charge of an operation's result; `0` when the operation raised
(the exception propagates before any assignment, so there is no new state). -/
def socOf : Except String Battery → ℚ
  | .ok b => b.stateOfChargePercent
  | .error _ => 0

/-- Current capacity of an operation's result; `0` when the operation raised. -/
def capOf : Except String Battery → ℚ
  | .ok b => b.currentCapacityAh
  | .error _ => 0

/-- A constant clock stream, used for concrete instances. -/
def zeroClock : ℕ → ℚ := fun _ => 0

/-- A battery at 50% SOC, 300 Ah, used as a concrete instance. -/
def cexBatteryA : Battery :=
  { voltage := 100, initialCapacityAh := 300, currentCapacityAh := 300,
    maxCycles := 1000, completedCycles := 0, stateOfChargePercent := 50,
    minStateOfHealth := 80, degradationInSection := 0, minBatteryCharge := 20,
    timerStart := none, totalTimeBelowMinSoc := 0, clockIdx := 0 }

/-- The same battery at 100% SOC. -/
def cexBatteryB : Battery :=
  { cexBatteryA with stateOfChargePercent := 100 }

theorem pyMin_le_right (a b : ℚ) : pyMin a b ≤ b := by
  unfold pyMin
  split
  · assumption
  · exact le_refl b

theorem check_soc_preserves_soc (b : Battery) (clock : ℕ → ℚ) (s : ℚ) :
    (b.check_soc_under_minimum clock s).stateOfChargePercent
      = b.stateOfChargePercent := by
  unfold Battery.check_soc_under_minimum
  split <;> split <;> rfl

theorem compute_new_soc_le_100 (b : Battery) (ah u : ℚ)
    (hcap : 0 < b.currentCapacityAh)
    (h : b.compute_new_soc ah = .ok u) : u ≤ 100 := by
  unfold Battery.compute_new_soc pyDiv at h
  simp only [] at h
  rw [if_neg (ne_of_gt hcap)] at h
  simp only [Bind.bind, Except.bind, pure, Except.pure, Except.ok.injEq] at h
  have hq : pyMin (b.get_soc_in_ah - ah) b.currentCapacityAh
      / b.currentCapacityAh ≤ 1 :=
    (div_le_one hcap).mpr (pyMin_le_right _ _)
  calc u = _ * 100 := h.symm
    _ ≤ 1 * 100 := by
        exact mul_le_mul_of_nonneg_right hq (by norm_num)
    _ = 100 := by norm_num

theorem update_ok_soc_le_100 (b : Battery) (clock : ℕ → ℚ) (ah t : ℚ)
    (b' : Battery) (hcap : 0 < b.currentCapacityAh)
    (h : b.update_soc_and_degradation clock ah t = .ok b') :
    b'.stateOfChargePercent ≤ 100 := by
  unfold Battery.update_soc_and_degradation at h
  cases hu : b.compute_new_soc ah with
  | error e => rw [hu] at h; simp [Bind.bind, Except.bind] at h
  | ok u =>
    rw [hu] at h
    simp only [Bind.bind, Except.bind] at h
    cases hc : b.calculate_current (some ah) (some t) none with
    | error e => rw [hc] at h; simp [Bind.bind, Except.bind] at h
    | ok c =>
      rw [hc] at h
      simp only [Bind.bind, Except.bind] at h
      cases hd : b.apply_degradation u c with
      | error e => rw [hd] at h; simp [Bind.bind, Except.bind] at h
      | ok b2 =>
        rw [hd] at h
        simp only [Bind.bind, Except.bind, pure, Except.pure,
          Except.ok.injEq] at h
        have : b'.stateOfChargePercent = u := by
          rw [← h, check_soc_preserves_soc]
        rw [this]
        exact compute_new_soc_le_100 b ah u hcap hu

theorem charge_ok_soc_le_100 (b : Battery) (clock : ℕ → ℚ) (p d : ℚ)
    (r : ℚ × Battery) (hcap : 0 < b.currentCapacityAh)
    (h : b.charge_in_charging_point clock p d = .ok r) :
    r.2.stateOfChargePercent ≤ 100 := by
  unfold Battery.charge_in_charging_point at h
  cases ht : b.calculate_time_to_charge p d with
  | error e => rw [ht] at h; simp [Bind.bind, Except.bind] at h
  | ok ts =>
    rw [ht] at h
    simp only [Bind.bind, Except.bind] at h
    cases hc : b.calculate_current none none (some p) with
    | error e => rw [hc] at h; simp [Bind.bind, Except.bind] at h
    | ok cur =>
      rw [hc] at h
      simp only [Bind.bind, Except.bind] at h
      cases hu : b.update_soc_and_degradation clock (-(cur * (ts / 3600))) ts with
      | error e => rw [hu] at h; simp [Bind.bind, Except.bind] at h
      | ok b2 =>
        rw [hu] at h
        simp only [Bind.bind, Except.bind, pure, Except.pure,
          Except.ok.injEq] at h
        have : r.2 = b2 := by rw [← h]
        rw [this]
        exact update_ok_soc_le_100 b clock _ ts b2 hcap hu

/-- Claim C1 (amended): after any single battery operation (drive update or
charging-point charge) performed on a battery whose current capacity is
positive, the resulting state of charge is at most 100%.  The claimed lower
bound 0 and the claimed bound `current_capacity_ah ≤ initial capacity` do
not hold in general (see the counterexample). -/
theorem battery_soc_le_100_after_op (b : Battery) (clock : ℕ → ℚ)
    (op : BatteryOp) (hcap : 0 < b.currentCapacityAh) :
    socOf (b.apply_op clock op) ≤ 100 := by
  cases op with
  | drive ah t =>
    cases h : b.apply_op clock (.drive ah t) with
    | error e => simp [socOf]
    | ok b' =>
      simp only [socOf]
      exact update_ok_soc_le_100 b clock ah t b' hcap h
  | chargeAt p d =>
    cases hc : b.charge_in_charging_point clock p d with
    | error e => simp [Battery.apply_op, hc, Functor.map, Except.map, socOf]
    | ok r =>
      simp only [Battery.apply_op, hc, Functor.map, Except.map, socOf]
      exact charge_ok_soc_le_100 b clock p d r hcap hc

/-- Witness for C1 (amended) at a concrete battery and operation. -/
theorem battery_soc_le_100_after_op_witness :
    socOf (cexBatteryA.apply_op zeroClock (.drive 30 3600)) ≤ 100 :=
  battery_soc_le_100_after_op cexBatteryA zeroClock (.drive 30 3600)
    (by norm_num [cexBatteryA])

/-- Counterexample for C1 as stated: a single positive-time charge-direction
drive update pushes `current_capacity_ah` above the initial 300 Ah (the
degradation factor turns negative at high charging currents), and a single
positive-time discharge of 400 Ah drives the SOC below 0 (the source's
`_compute_new_soc` deliberately does not clamp negative SOC). -/
theorem battery_soc_bounds_cex :
    300 < capOf (cexBatteryA.apply_ops zeroClock [.drive (-2) 1])
      ∧ socOf (cexBatteryB.apply_ops zeroClock [.drive 400 3600]) < 0 := by
  constructor <;>
    norm_num [Battery.apply_ops, Battery.apply_op,
      Battery.update_soc_and_degradation, Battery.compute_new_soc,
      Battery.get_soc_in_ah, pyMin, pyDiv, Battery.calculate_current,
      Battery.apply_degradation, Battery.soc_degradation_factor,
      Battery.is_charging, Battery.calculate_charging_degradation,
      Battery.calculate_discharging_degradation,
      Battery.electric_current_degradation_factor, pyAbs,
      Battery.increase_completed_cycles, Battery.degradation_rate,
      Battery.state_of_health, Battery.check_soc_under_minimum,
      Bind.bind, Except.bind, pure, Except.pure, capOf, socOf,
      cexBatteryA, cexBatteryB, zeroClock]

theorem update_zero_ah_raises (b : Battery) (clock : ℕ → ℚ) (t : ℚ)
    (hcap : b.currentCapacityAh ≠ 0) :
    b.update_soc_and_degradation clock 0 t = .error missingArgsMsg := by
  simp [Battery.update_soc_and_degradation, Battery.compute_new_soc,
    Battery.get_soc_in_ah, pyMin, pyDiv, hcap, Battery.calculate_current,
    Option.getD, Bind.bind, Except.bind, pure, Except.pure]

/-- Claim C9: a zero Ah transfer is treated by `_calculate_current` exactly
like a missing argument, so `update_soc_and_degradation(0, t)` raises the
missing-arguments `ValueError` (before any state assignment, hence with the
battery unchanged), and `ElectricalEngine.consumption` propagates this
error for any section whose adjusted power is 0. -/
theorem zero_transfer_raises :
    (∀ (b : Battery) (clock : ℕ → ℚ) (t : ℚ), 0 < t →
        b.currentCapacityAh ≠ 0 →
        b.update_soc_and_degradation clock 0 t = .error missingArgsMsg)
    ∧ (∀ (e : ElectricalEngine) (clock : ℕ → ℚ) (p t : ℚ), 0 < t →
        e.battery.currentCapacityAh ≠ 0 → e.battery.voltage ≠ 0 →
        e.adjust_power p = 0 →
        e.consumption clock p t = .error missingArgsMsg) := by
  constructor
  · intro b clock t _ hcap
    exact update_zero_ah_raises b clock t hcap
  · intro e clock p t _ hcap hv hadj
    simp [ElectricalEngine.consumption, hadj, pyDiv, hv, Bind.bind, Except.bind,
      update_zero_ah_raises e.battery clock t hcap]

/-- Witness for C9 at a concrete battery, engine and time. -/
theorem zero_transfer_raises_witness :
    cexBatteryA.update_soc_and_degradation zeroClock 0 60 = .error missingArgsMsg
    ∧ ({ maxPower := 100000, efficiency := 1, battery := cexBatteryA } :
        ElectricalEngine).consumption zeroClock 0 60 = .error missingArgsMsg :=
  ⟨zero_transfer_raises.1 cexBatteryA zeroClock 60 (by norm_num)
      (by norm_num [cexBatteryA]),
   zero_transfer_raises.2 _ zeroClock 0 60 (by norm_num)
      (by norm_num [cexBatteryA]) (by norm_num [cexBatteryA])
      (by norm_num [ElectricalEngine.adjust_power])⟩

/-- Claim C7 (amended): the current-magnitude degradation factor is monotone
in magnitude on the discharging regime (current ≥ 0), but on the charging
regime (current < 0) it is antitone in magnitude: the source multiplies the
raw negative current by a positive slope, so a higher-magnitude charging
current yields a strictly smaller factor. -/
theorem electric_current_factor_monotone :
    (∀ i1 i2 : ℚ, 0 ≤ i1 → i1 ≤ i2 →
        Battery.electric_current_degradation_factor i1
          ≤ Battery.electric_current_degradation_factor i2)
    ∧ (∀ i1 i2 : ℚ, i1 < 0 → i2 < 0 → pyAbs i1 ≤ pyAbs i2 →
        Battery.electric_current_degradation_factor i2
          ≤ Battery.electric_current_degradation_factor i1) := by
  constructor
  · intro i1 i2 h0 h12
    have h1 : ¬ (i1 < 0) := not_lt.mpr h0
    have h2 : ¬ (i2 < 0) := not_lt.mpr (h0.trans h12)
    simp [Battery.electric_current_degradation_factor, Battery.is_charging,
      pyAbs, h1, h2]
    linarith
  · intro i1 i2 h1 h2 hab
    simp only [pyAbs, if_pos h1, if_pos h2] at hab
    simp [Battery.electric_current_degradation_factor, Battery.is_charging,
      h1, h2]
    linarith

/-- Witness for C7 (amended) at concrete discharging and charging currents. -/
theorem electric_current_factor_monotone_witness :
    Battery.electric_current_degradation_factor 1
      ≤ Battery.electric_current_degradation_factor 2
    ∧ Battery.electric_current_degradation_factor (-2)
      ≤ Battery.electric_current_degradation_factor (-1) :=
  ⟨electric_current_factor_monotone.1 1 2 (by norm_num) (by norm_num),
   electric_current_factor_monotone.2 (-1) (-2) (by norm_num) (by norm_num)
     (by norm_num [pyAbs])⟩

/-- Counterexample for C7 as stated: the charging currents −1 A and −2 A are
in the same regime with `|−1| ≤ |−2|`, yet the factor at −2 A is strictly
smaller than the factor at −1 A. -/
theorem electric_current_factor_cex :
    Battery.is_charging (-1) = true ∧ Battery.is_charging (-2) = true
    ∧ pyAbs (-1) ≤ pyAbs (-2)
    ∧ ¬ (Battery.electric_current_degradation_factor (-1)
          ≤ Battery.electric_current_degradation_factor (-2)) := by
  norm_num [Battery.is_charging, pyAbs, Battery.electric_current_degradation_factor]

/-! Kinematic solver (`simulated_section.py`, `base_section.py`,
`resistance_calculator.py`, `utils/constants.py`)

The geodesic length of a segment and the trigonometric functions
(`math.atan`/`math.degrees`, `math.sin`/`math.radians`) are not rational;
they enter the model as explicit function parameters (`geodesic`,
`atanDeg`, `sinDeg`), applied exactly where the source applies them.
The iterative speed-reduction loops are given explicit fuel; running out of
fuel is reported with the distinguished message `fuelOutMsg`, so that a
genuinely non-terminating loop is the one that yields `fuelOutMsg` for
every fuel. -/

def MAX_ACCELERATION : ℚ := 3/2

def MAX_DECELERATION : ℚ := -1

def AIR_DENSITY : ℚ := 1225/1000

def GRAVITY : ℚ := 981/100

def fuelOutMsg : String := "model: loop fuel exhausted"

/-- Bus physical parameters read by the resistance calculator. -/
structure BusParams where
  totalMass : ℚ
  dragCoefficient : ℚ
  frontalArea : ℚ
  rollingResistanceCoefficient : ℚ
  deriving Repr, DecidableEq

/-- Embeds `ResistanceCalculator.air_resistance`. -/
def air_resistance (bus : BusParams) (averageSpeed : ℚ) : ℚ :=
  1/2 * AIR_DENSITY * bus.dragCoefficient * bus.frontalArea * averageSpeed^2

/-- Embeds `ResistanceCalculator.inertia`. -/
def inertia (bus : BusParams) (acceleration : ℚ) : ℚ :=
  bus.totalMass * acceleration

/-- Embeds `ResistanceCalculator.grade_resistance`; `sinDeg` stands for
`math.sin(math.radians(·))`. -/
def grade_resistance (sinDeg : ℚ → ℚ) (bus : BusParams) (gradeAngle : ℚ) : ℚ :=
  bus.totalMass * GRAVITY * sinDeg gradeAngle

/-- Embeds `ResistanceCalculator.rolling_resistance`. -/
def rolling_resistance (bus : BusParams) : ℚ :=
  bus.rollingResistanceCoefficient * bus.totalMass * GRAVITY

/-- Embeds `ResistanceCalculator.total_resistance`. -/
def total_resistance (sinDeg : ℚ → ℚ) (bus : BusParams)
    (averageSpeed acceleration gradeAngle : ℚ) : ℚ :=
  air_resistance bus averageSpeed + inertia bus acceleration
    + grade_resistance sinDeg bus gradeAngle + rolling_resistance bus

/-- Embeds `BaseSection.grade_angle`; `atanDeg` stands for
`math.degrees(math.atan(·))`. -/
def grade_angle (atanDeg : ℚ → ℚ) (length deltaAltitude : ℚ) : ℚ :=
  if length ≠ 0 then atanDeg (deltaAltitude / length) else 0

/-- Embeds `SimulatedSection._calculate_effective_forces`. -/
def calculate_effective_forces (totalResistance totalMass : ℚ) :
    Except String (ℚ × ℚ) := do
  let r ← pyDiv totalResistance totalMass
  return (MAX_ACCELERATION - r, MAX_DECELERATION + r)

/-- The `while` loop of `SimulatedSection._decelerate_to_stop`: state is
`(startSpeed, decel)`; each pass lowers the start speed by `stepSize` only
while that keeps it nonnegative, then recomputes `(-start^2)/(2*dist)`. -/
def decelerate_to_stop_go (dist effMaxDecel stepSize : ℚ) :
    ℕ → ℚ → ℚ → Except String (ℚ × ℚ)
  | 0, _, _ => .error fuelOutMsg
  | fuel+1, startSpeed, decel =>
    if pyAbs decel > pyAbs effMaxDecel then
      let startSpeed' :=
        if startSpeed - stepSize ≥ 0 then startSpeed - stepSize else startSpeed
      decelerate_to_stop_go dist effMaxDecel stepSize fuel startSpeed'
        ((-startSpeed'^2) / (2*dist))
    else .ok (startSpeed, decel)

/-- Embeds `SimulatedSection._decelerate_to_stop`: sets `end_speed = 0`, seeds the
loop with `_calculate_instant_acceleration(start, 0, dist)` (which raises
`ZeroDivisionError` when `dist = 0`), and returns
`(finalStartSpeed, endSpeed, decel)`. -/
def decelerate_to_stop (fuel : ℕ) (dist effMaxDecel stepSize startSpeed : ℚ) :
    Except String (ℚ × ℚ × ℚ) :=
  if 2*dist = 0 then .error zeroDivMsg
  else do
    let (s, d) ← decelerate_to_stop_go dist effMaxDecel stepSize fuel startSpeed
      ((0^2 - startSpeed^2) / (2*dist))
    return (s, 0, d)

/-- The `while` loop of `SimulatedSection._decelerate`: state is
`(startSpeed, endSpeed, decel)`; both speeds are lowered by `stepSize`
only while that keeps each nonnegative. -/
def decelerate_go (dist effMaxDecel stepSize : ℚ) :
    ℕ → ℚ → ℚ → ℚ → Except String (ℚ × ℚ × ℚ)
  | 0, _, _, _ => .error fuelOutMsg
  | fuel+1, startSpeed, endSpeed, decel =>
    if pyAbs decel > pyAbs effMaxDecel then
      let endSpeed' :=
        if endSpeed - stepSize ≥ 0 then endSpeed - stepSize else endSpeed
      let startSpeed' :=
        if startSpeed - stepSize ≥ 0 then startSpeed - stepSize else startSpeed
      decelerate_go dist effMaxDecel stepSize fuel startSpeed' endSpeed'
        ((endSpeed'^2 - startSpeed'^2) / (2*dist))
    else .ok (startSpeed, endSpeed, decel)

/-- Embeds `SimulatedSection._decelerate`: sets `end_speed = limit`, seeds the loop
with `_calculate_instant_acceleration(start, limit, dist)`. -/
def decelerate (fuel : ℕ) (dist effMaxDecel stepSize limit startSpeed : ℚ) :
    Except String (ℚ × ℚ × ℚ) :=
  if 2*dist = 0 then .error zeroDivMsg
  else decelerate_go dist effMaxDecel stepSize fuel startSpeed limit
    ((limit^2 - startSpeed^2) / (2*dist))

/-- The `while` loop of `SimulatedSection._accelerate`; its body is
identical to `_decelerate`'s loop, guarded by the acceleration bound. -/
def accelerate_go (dist effMaxAccel stepSize : ℚ) :
    ℕ → ℚ → ℚ → ℚ → Except String (ℚ × ℚ × ℚ)
  | 0, _, _, _ => .error fuelOutMsg
  | fuel+1, startSpeed, endSpeed, accel =>
    if pyAbs accel > pyAbs effMaxAccel then
      let endSpeed' :=
        if endSpeed - stepSize ≥ 0 then endSpeed - stepSize else endSpeed
      let startSpeed' :=
        if startSpeed - stepSize ≥ 0 then startSpeed - stepSize else startSpeed
      accelerate_go dist effMaxAccel stepSize fuel startSpeed' endSpeed'
        ((endSpeed'^2 - startSpeed'^2) / (2*dist))
    else .ok (startSpeed, endSpeed, accel)

/-- Embeds `SimulatedSection._accelerate`. -/
def accelerate (fuel : ℕ) (dist effMaxAccel stepSize limit startSpeed : ℚ) :
    Except String (ℚ × ℚ × ℚ) :=
  if 2*dist = 0 then .error zeroDivMsg
  else accelerate_go dist effMaxAccel stepSize fuel startSpeed limit
    ((limit^2 - startSpeed^2) / (2*dist))

/-- Embeds `SimulatedSection._calculate_end_speed`: case split on the speed limit;
all three searches are called with the default `step_size = 1.0`.  Returns
`(startSpeed, endSpeed, decel?, accel?)`. -/
def calculate_end_speed (fuel : ℕ)
    (dist effMaxAccel effMaxDecel limit startSpeed : ℚ) :
    Except String (ℚ × ℚ × Option ℚ × Option ℚ) :=
  if limit = 0 then do
    let (s, e, d) ← decelerate_to_stop fuel dist effMaxDecel 1 startSpeed
    return (s, e, some d, none)
  else if limit < startSpeed then do
    let (s, e, d) ← decelerate fuel dist effMaxDecel 1 limit startSpeed
    return (s, e, some d, none)
  else if limit > startSpeed then do
    let (s, e, a) ← accelerate fuel dist effMaxAccel 1 limit startSpeed
    return (s, e, none, some a)
  else
    .ok (startSpeed, limit, none, none)

/-- Embeds `SimulatedSection._set_acceleration`. -/
def set_acceleration (decel accel : Option ℚ) : ℚ :=
  match decel, accel with
  | none, some a => a
  | some d, none => d
  | _, _ => 0

/-- Embeds `SimulatedSection._calculate_time`; note that Python's
`decel is not None and decel < 0` is exactly `decel.getD 0 < 0`. -/
def calculate_time (decel accel : Option ℚ)
    (startTime startSpeed endSpeed dist : ℚ) : ℚ :=
  if decel.getD 0 < 0 then
    startTime + (startSpeed - endSpeed) / pyAbs (decel.getD 0)
  else if 0 < accel.getD 0 then
    startTime + (endSpeed - startSpeed) / accel.getD 0
  else
    startTime + dist / pyMax startSpeed (1/10)

/-- The solved state of a `SimulatedSection` after `_process`. -/
structure SimSection where
  speedLimit : ℚ
  startSpeed : ℚ
  endSpeed : ℚ
  startTime : ℚ
  endTime : ℚ
  acceleration : ℚ
  length : ℚ
  deriving Repr, DecidableEq

/-- Embeds `SimulatedSection.__init__` followed by `_process`.  The pre-solve
average speed and acceleration reproduce `BaseSection.__init__`, which runs
with `_end_speed = 0` and `_end_time = 0`. -/
def mkSimulatedSection (atanDeg sinDeg : ℚ → ℚ) (bus : BusParams) (fuel : ℕ)
    (length deltaAltitude speedLimitKmh startSpeed startTime : ℚ) :
    Except String SimSection := do
  let limit := speedLimitKmh / (36/10)
  let averageSpeed := (startSpeed + 0) / 2
  let accelerationPre :=
    if (0 - startTime) ≠ 0 then (0 - startSpeed) / (0 - startTime) else 0
  let angle := grade_angle atanDeg length deltaAltitude
  let resistance := total_resistance sinDeg bus averageSpeed accelerationPre angle
  let (effMaxAccel, effMaxDecel) ←
    calculate_effective_forces resistance bus.totalMass
  let (s, e, decel, accel) ←
    calculate_end_speed fuel length effMaxAccel effMaxDecel limit startSpeed
  let acc := set_acceleration decel accel
  let endTime := calculate_time decel accel startTime s e length
  return { speedLimit := limit, startSpeed := s, endSpeed := e,
           startTime := startTime, endTime := endTime,
           acceleration := acc, length := length }

/-- Termination of the whole solve of one `SimulatedSection`: some fuel
suffices, i.e. the result is not the fuel-exhaustion marker. -/
def SearchTerminates (atanDeg sinDeg : ℚ → ℚ) (bus : BusParams)
    (length deltaAltitude speedLimitKmh startSpeed startTime : ℚ) : Prop :=
  ∃ fuel, mkSimulatedSection atanDeg sinDeg bus fuel
      length deltaAltitude speedLimitKmh startSpeed startTime ≠ .error fuelOutMsg

theorem pyAbs_nonneg (q : ℚ) : 0 ≤ pyAbs q := by
  unfold pyAbs
  split <;> linarith

theorem pyAbs_of_nonpos {q : ℚ} (h : q ≤ 0) : pyAbs q = -q := by
  unfold pyAbs
  split
  · rfl
  · have h0 : q = 0 := le_antisymm h (not_lt.mp (by assumption))
    rw [h0]; norm_num

theorem decelerate_to_stop_go_ok_bound (dist eff step : ℚ) :
    ∀ (fuel : ℕ) (s0 d0 s d : ℚ),
      decelerate_to_stop_go dist eff step fuel s0 d0 = .ok (s, d) →
      pyAbs d ≤ pyAbs eff := by
  intro fuel
  induction fuel with
  | zero =>
    intro s0 d0 s d h
    simp [decelerate_to_stop_go, fuelOutMsg] at h
  | succ n ih =>
    intro s0 d0 s d h
    simp only [decelerate_to_stop_go] at h
    by_cases hg : pyAbs d0 > pyAbs eff
    · rw [if_pos hg] at h
      exact ih _ _ _ _ h
    · rw [if_neg hg] at h
      simp only [Except.ok.injEq, Prod.mk.injEq] at h
      rw [← h.2]
      exact not_lt.mp hg

/-- Claim C6: when the speed limit forces a stop, a terminating
`_decelerate_to_stop` search ends with `end_speed = 0` and a deceleration
whose magnitude is bounded by that of the resistance-adjusted
`effective_max_deceleration` produced by `_calculate_effective_forces`. -/
theorem stop_section_bound (totalResistance totalMass : ℚ)
    (effMaxAccel effMaxDecel : ℚ) (fuel : ℕ)
    (dist stepSize startSpeed s e d : ℚ)
    (heff : calculate_effective_forces totalResistance totalMass
      = .ok (effMaxAccel, effMaxDecel))
    (h : decelerate_to_stop fuel dist effMaxDecel stepSize startSpeed
      = .ok (s, e, d)) :
    e = 0 ∧ pyAbs d ≤ pyAbs effMaxDecel := by
  unfold decelerate_to_stop at h
  by_cases hz : 2*dist = 0
  · rw [if_pos hz] at h; exact absurd h (by simp)
  · rw [if_neg hz] at h
    cases hgo : decelerate_to_stop_go dist effMaxDecel stepSize fuel startSpeed
        ((0^2 - startSpeed^2) / (2*dist)) with
    | error msg => rw [hgo] at h; simp [Bind.bind, Except.bind] at h
    | ok r =>
      obtain ⟨s0, d0⟩ := r
      rw [hgo] at h
      simp only [Bind.bind, Except.bind, pure, Except.pure, Except.ok.injEq,
        Prod.mk.injEq] at h
      obtain ⟨-, he, hd⟩ := h
      refine ⟨he.symm, ?_⟩
      rw [← hd]
      exact decelerate_to_stop_go_ok_bound dist effMaxDecel stepSize fuel
        startSpeed _ s0 d0 hgo

/-- Witness for C6 at a flat, resistance-free section. -/
theorem stop_section_bound_witness :
    (0 : ℚ) = 0 ∧ pyAbs (-1/2 : ℚ) ≤ pyAbs (-1 : ℚ) :=
  stop_section_bound 0 10000 (3/2) (-1) 1 100 1 10 10 0 (-1/2)
    (by norm_num [calculate_effective_forces, pyDiv, Bind.bind, Except.bind,
      pure, Except.pure, MAX_ACCELERATION, MAX_DECELERATION])
    (by norm_num [decelerate_to_stop, decelerate_to_stop_go, pyAbs,
      Bind.bind, Except.bind, pure, Except.pure])

theorem decel_stop_go_term (dist eff step : ℚ) (hd : 0 < dist) (hs : 0 < step)
    (hstep : step^2 ≤ 2*dist*pyAbs eff) :
    ∀ (n : ℕ) (start : ℚ), 0 ≤ start → start ≤ n * step →
      ∃ r, decelerate_to_stop_go dist eff step (n+1) start
        ((-start^2) / (2*dist)) = .ok r := by
  intro n
  induction n with
  | zero =>
    intro start h0 hle
    have hstart : start = 0 := le_antisymm (by simpa using hle) h0
    subst hstart
    refine ⟨(0, (-(0:ℚ)^2) / (2*dist)), ?_⟩
    simp only [decelerate_to_stop_go]
    rw [if_neg]
    apply not_lt.mpr
    have hz : ((-(0:ℚ)^2) / (2*dist)) = 0 := by norm_num
    rw [hz]
    calc pyAbs (0:ℚ) = 0 := by norm_num [pyAbs]
      _ ≤ pyAbs eff := pyAbs_nonneg eff
  | succ n ih =>
    intro start h0 hle
    by_cases hg : pyAbs ((-start^2) / (2*dist)) > pyAbs eff
    · by_cases hss : start - step ≥ 0
      · have hle' : start - step ≤ n * step := by
          have : start ≤ (↑n + 1) * step := by
            have hcast : ((↑(n+1) : ℚ)) = ↑n + 1 := by push_cast; ring
            rw [hcast] at hle; exact hle
          linarith
        obtain ⟨r, hr⟩ := ih (start - step) hss hle'
        refine ⟨r, ?_⟩
        simp only [decelerate_to_stop_go]
        rw [if_pos hg]
        simp only [if_pos hss]
        exact hr
      · exfalso
        have hlt : start < step := by
          have := not_le.mp hss
          linarith
        have hnp : (-start^2) / (2*dist) ≤ 0 := by
          apply div_nonpos_of_nonpos_of_nonneg
          · exact neg_nonpos.mpr (sq_nonneg start)
          · linarith
        have h1 : pyAbs ((-start^2) / (2*dist)) = start^2 / (2*dist) := by
          rw [pyAbs_of_nonpos hnp, neg_div, neg_neg]
        have h2d : (0:ℚ) < 2*dist := by linarith
        have hs2 : start^2 < step^2 := by nlinarith
        have h2 : start^2 / (2*dist) < pyAbs eff := by
          have hlt2 : start^2 / (2*dist) < step^2 / (2*dist) := by gcongr
          have hle2 : step^2 / (2*dist) ≤ pyAbs eff := by
            rw [div_le_iff₀ h2d]; linarith
          linarith
        rw [h1] at hg
        linarith
    · exact ⟨(start, (-start^2) / (2*dist)), by
        simp only [decelerate_to_stop_go]; rw [if_neg hg]⟩

theorem decel_go_term (dist eff step : ℚ) (hd : 0 < dist) (hs : 0 < step)
    (hstep : step^2 ≤ 2*dist*pyAbs eff) :
    ∀ (n : ℕ) (startSpeed endSpeed : ℚ),
      0 ≤ startSpeed → 0 ≤ endSpeed → startSpeed + endSpeed ≤ n * step →
      ∃ r, decelerate_go dist eff step (n+1) startSpeed endSpeed
        ((endSpeed^2 - startSpeed^2) / (2*dist)) = .ok r := by
  intro n
  induction n with
  | zero =>
    intro s e h0s h0e hle
    have hse : s = 0 ∧ e = 0 := by
      constructor <;> [linarith [by simpa using hle]; linarith [by simpa using hle]]
    obtain ⟨rfl, rfl⟩ := hse
    refine ⟨(0, 0, ((0:ℚ)^2 - (0:ℚ)^2) / (2*dist)), ?_⟩
    simp only [decelerate_go]
    rw [if_neg]
    apply not_lt.mpr
    have hz : (((0:ℚ)^2 - (0:ℚ)^2) / (2*dist)) = 0 := by norm_num
    rw [hz]
    calc pyAbs (0:ℚ) = 0 := by norm_num [pyAbs]
      _ ≤ pyAbs eff := pyAbs_nonneg eff
  | succ n ih =>
    intro s e h0s h0e hle
    have hcast : ((↑(n+1) : ℚ)) = ↑n + 1 := by push_cast; ring
    rw [hcast] at hle
    by_cases hg : pyAbs ((e^2 - s^2) / (2*dist)) > pyAbs eff
    · by_cases hes : e - step ≥ 0 <;> by_cases hss : s - step ≥ 0
      · -- both speeds step down
        obtain ⟨r, hr⟩ := ih (s - step) (e - step) hss hes (by linarith)
        refine ⟨r, ?_⟩
        conv_lhs => rw [decelerate_go]
        rw [if_pos hg]
        simp only [if_pos hss, if_pos hes]
        exact hr
      · -- only the end speed steps down
        obtain ⟨r, hr⟩ := ih s (e - step) h0s hes (by linarith)
        refine ⟨r, ?_⟩
        conv_lhs => rw [decelerate_go]
        rw [if_pos hg]
        simp only [if_pos hes, if_neg hss]
        exact hr
      · -- only the start speed steps down
        obtain ⟨r, hr⟩ := ih (s - step) e hss h0e (by linarith)
        refine ⟨r, ?_⟩
        conv_lhs => rw [decelerate_go]
        rw [if_pos hg]
        simp only [if_pos hss, if_neg hes]
        exact hr
      · -- both speeds are below the step: the guard cannot hold
        exfalso
        have hlts : s < step := by linarith [not_le.mp hss]
        have hlte : e < step := by linarith [not_le.mp hes]
        have h2d : (0:ℚ) < 2*dist := by linarith
        have habs : pyAbs ((e^2 - s^2) / (2*dist)) = |e^2 - s^2| / (2*dist) := by
          rw [pyAbs_eq_abs, abs_div, abs_of_pos h2d]
        have hnum : |e^2 - s^2| < step^2 := by
          rw [abs_sub_lt_iff]
          constructor <;> nlinarith
        have h2 : |e^2 - s^2| / (2*dist) < pyAbs eff := by
          have hlt2 : |e^2 - s^2| / (2*dist) < step^2 / (2*dist) := by gcongr
          have hle2 : step^2 / (2*dist) ≤ pyAbs eff := by
            rw [div_le_iff₀ h2d]; linarith
          linarith
        rw [habs] at hg
        linarith
    · exact ⟨(s, e, (e^2 - s^2) / (2*dist)), by
        simp only [decelerate_go]; rw [if_neg hg]⟩

theorem accelerate_go_eq_decelerate_go (dist eff step : ℚ) :
    ∀ (fuel : ℕ) (s e a : ℚ),
      accelerate_go dist eff step fuel s e a
        = decelerate_go dist eff step fuel s e a := by
  intro fuel
  induction fuel with
  | zero => intro s e a; rfl
  | succ n ih =>
    intro s e a
    simp only [accelerate_go, decelerate_go]
    by_cases hg : pyAbs a > pyAbs eff
    · rw [if_pos hg, if_pos hg]
      exact ih _ _ _
    · rw [if_neg hg, if_neg hg]

/-- Claim C3 (amended): the three iterative speed-reduction searches
terminate for every nonnegative start speed and speed limit PROVIDED
`step_size² ≤ 2·dist·|effective bound|`; the speed floor alone does not
guarantee termination, because once a speed falls below the step size the
loop body no longer changes the state (see the counterexample). -/
theorem searches_terminate :
    (∀ dist eff step startSpeed : ℚ,
        0 < dist → 0 < step → 0 ≤ startSpeed → step^2 ≤ 2*dist*pyAbs eff →
        ∃ fuel r, decelerate_to_stop fuel dist eff step startSpeed = .ok r)
    ∧ (∀ dist eff step limit startSpeed : ℚ,
        0 < dist → 0 < step → 0 ≤ startSpeed → 0 ≤ limit →
        step^2 ≤ 2*dist*pyAbs eff →
        ∃ fuel r, decelerate fuel dist eff step limit startSpeed = .ok r)
    ∧ (∀ dist eff step limit startSpeed : ℚ,
        0 < dist → 0 < step → 0 ≤ startSpeed → 0 ≤ limit →
        step^2 ≤ 2*dist*pyAbs eff →
        ∃ fuel r, accelerate fuel dist eff step limit startSpeed = .ok r) := by
  have h2dist : ∀ dist : ℚ, 0 < dist → ¬ (2*dist = 0) := by
    intro dist h heq; linarith
  refine ⟨?_, ?_, ?_⟩
  · intro dist eff step start hd hs h0 hstep
    obtain ⟨r, hr⟩ := decel_stop_go_term dist eff step hd hs hstep
      ⌈start/step⌉₊ start h0 (by
        have := Nat.le_ceil (start/step)
        rw [div_le_iff₀ hs] at this
        exact this)
    obtain ⟨s0, d0⟩ := r
    refine ⟨⌈start/step⌉₊ + 1, (s0, 0, d0), ?_⟩
    unfold decelerate_to_stop
    rw [if_neg (h2dist dist hd)]
    have hseed : ((0:ℚ)^2 - start^2) / (2*dist) = (-start^2) / (2*dist) := by
      ring_nf
    rw [hseed, hr]
    simp [Bind.bind, Except.bind, pure, Except.pure]
  · intro dist eff step limit start hd hs h0 h0l hstep
    obtain ⟨r, hr⟩ := decel_go_term dist eff step hd hs hstep
      ⌈(start + limit)/step⌉₊ start limit h0 h0l (by
        have := Nat.le_ceil ((start + limit)/step)
        rw [div_le_iff₀ hs] at this
        exact this)
    refine ⟨⌈(start + limit)/step⌉₊ + 1, r, ?_⟩
    unfold decelerate
    rw [if_neg (h2dist dist hd)]
    exact hr
  · intro dist eff step limit start hd hs h0 h0l hstep
    obtain ⟨r, hr⟩ := decel_go_term dist eff step hd hs hstep
      ⌈(start + limit)/step⌉₊ start limit h0 h0l (by
        have := Nat.le_ceil ((start + limit)/step)
        rw [div_le_iff₀ hs] at this
        exact this)
    refine ⟨⌈(start + limit)/step⌉₊ + 1, r, ?_⟩
    unfold accelerate
    rw [if_neg (h2dist dist hd)]
    rw [accelerate_go_eq_decelerate_go]
    exact hr

/-- Witness for C3 (amended): the three searches terminate on a concrete
section with `dist = 100`, bound `-1`, step `1`. -/
theorem searches_terminate_witness :
    (∃ fuel r, decelerate_to_stop fuel 100 (-1) 1 10 = .ok r)
    ∧ (∃ fuel r, decelerate fuel 100 (-1) 1 5 10 = .ok r)
    ∧ (∃ fuel r, accelerate fuel 100 (-1) 1 15 10 = .ok r) :=
  ⟨searches_terminate.1 100 (-1) 1 10 (by norm_num) (by norm_num) (by norm_num)
      (by norm_num [pyAbs]),
   searches_terminate.2.1 100 (-1) 1 5 10 (by norm_num) (by norm_num)
      (by norm_num) (by norm_num) (by norm_num [pyAbs]),
   searches_terminate.2.2 100 (-1) 1 15 10 (by norm_num) (by norm_num)
      (by norm_num) (by norm_num) (by norm_num [pyAbs])⟩

/-- The bus parameters of the non-termination instance: no drag, rolling
coefficient 50/981, so that `total_resistance / mass = 1/2` and the
effective deceleration bound is `-1/2`. -/
def stallBus : BusParams :=
  { totalMass := 10000, dragCoefficient := 0, frontalArea := 10,
    rollingResistanceCoefficient := 50/981 }

theorem stall_loop_spins (n : ℕ) (d : ℚ) (hdv : d = -(81/2)) :
    decelerate_to_stop_go (1/100) (-(1/2)) 1 n (9/10) d
      = .error fuelOutMsg := by
  induction n generalizing d with
  | zero => simp [decelerate_to_stop_go]
  | succ n ih =>
    subst hdv
    conv_lhs => rw [decelerate_to_stop_go]
    rw [if_pos (by norm_num [pyAbs])]
    rw [if_neg (by norm_num)]
    exact ih _ (by norm_num)

/-- Counterexample for C3 as stated: a positive-length segment
(`dist = 1/100 m`) with speed limit 0 and start speed `9/10 m/s < step_size`
makes `_decelerate_to_stop` spin forever: the start speed can no longer be
lowered (the floor guard blocks it), yet the required deceleration `-81/2`
keeps exceeding the effective bound `-1/2`, so no amount of fuel makes the
solve finish. -/
theorem search_nontermination_cex :
    ¬ SearchTerminates id id stallBus (1/100) 0 0 (9/10) 0 := by
  rintro ⟨fuel, hne⟩
  apply hne
  have hgo : decelerate_to_stop_go (1/100) (-(1/2)) 1 fuel (9/10) (-(81/2))
      = .error fuelOutMsg := stall_loop_spins fuel _ rfl
  norm_num [mkSimulatedSection, grade_angle, total_resistance, air_resistance,
    inertia, grade_resistance, rolling_resistance, stallBus, AIR_DENSITY,
    GRAVITY, calculate_effective_forces, pyDiv, MAX_ACCELERATION,
    MAX_DECELERATION, calculate_end_speed, decelerate_to_stop,
    Bind.bind, Except.bind, pure, Except.pure]
  rw [hgo]

/-- Claim C5 (amended): over a zero-length segment the grade angle is 0
always, and construction is a defended no-op (duration 0, speed unchanged,
no error) ONLY in the `limit == start_speed != 0` case; whenever the speed
limit is 0 or differs from the start speed, the solver divides by
`2 * dist = 0` and raises `ZeroDivisionError`. -/
theorem zero_length_section (atanDeg sinDeg : ℚ → ℚ) (bus : BusParams)
    (fuel : ℕ) (deltaAltitude speedLimitKmh startSpeed startTime : ℚ) :
    grade_angle atanDeg 0 deltaAltitude = 0
    ∧ (bus.totalMass ≠ 0 → speedLimitKmh ≠ 0 →
        speedLimitKmh / (36/10) = startSpeed →
        mkSimulatedSection atanDeg sinDeg bus fuel 0 deltaAltitude
          speedLimitKmh startSpeed startTime
          = .ok { speedLimit := startSpeed, startSpeed := startSpeed,
                  endSpeed := startSpeed, startTime := startTime,
                  endTime := startTime, acceleration := 0, length := 0 })
    ∧ (speedLimitKmh = 0 ∨ speedLimitKmh / (36/10) ≠ startSpeed →
        mkSimulatedSection atanDeg sinDeg bus fuel 0 deltaAltitude
          speedLimitKmh startSpeed startTime
          = .error zeroDivMsg) := by
  refine ⟨by simp [grade_angle], ?_, ?_⟩
  · intro hm hk he
    have hlim0 : speedLimitKmh / (36/10) ≠ 0 := by
      intro h0
      rcases div_eq_zero_iff.mp h0 with h | h
      · exact hk h
      · norm_num at h
    rw [he] at hlim0
    simp only [mkSimulatedSection, calculate_effective_forces, pyDiv,
      if_neg hm, Bind.bind, Except.bind, pure, Except.pure,
      calculate_end_speed, he, if_neg hlim0, lt_irrefl, if_neg (lt_irrefl _),
      gt_iff_lt, if_false]
    simp [set_acceleration, calculate_time, Option.getD]
  · intro hcase
    by_cases hm : bus.totalMass = 0
    · simp [mkSimulatedSection, calculate_effective_forces, pyDiv, hm,
        Bind.bind, Except.bind]
    · by_cases hk0 : speedLimitKmh / (36/10) = 0
      · simp [mkSimulatedSection, calculate_effective_forces, pyDiv, hm,
          Bind.bind, Except.bind, pure, Except.pure, calculate_end_speed,
          hk0, decelerate_to_stop]
      · have hne : speedLimitKmh / (36/10) ≠ startSpeed := by
          rcases hcase with hk | hne
          · exact absurd (by rw [hk]; norm_num) hk0
          · exact hne
        rcases lt_or_gt_of_ne hne with hlt | hgt
        · simp [mkSimulatedSection, calculate_effective_forces, pyDiv, hm,
            Bind.bind, Except.bind, pure, Except.pure, calculate_end_speed,
            hk0, if_pos hlt, decelerate]
        · simp [mkSimulatedSection, calculate_effective_forces, pyDiv, hm,
            Bind.bind, Except.bind, pure, Except.pure, calculate_end_speed,
            hk0, if_neg (not_lt.mpr hgt.le), if_pos hgt, accelerate]

/-- Witness for C5 (amended) at concrete zero-length segments. -/
theorem zero_length_section_witness :
    grade_angle id 0 5 = 0
    ∧ mkSimulatedSection id id stallBus 1 0 3 36 10 7
        = .ok { speedLimit := 10, startSpeed := 10, endSpeed := 10,
                startTime := 7, endTime := 7, acceleration := 0, length := 0 }
    ∧ mkSimulatedSection id id stallBus 1 0 3 0 5 7
        = .error zeroDivMsg :=
  ⟨(zero_length_section id id stallBus 1 5 36 10 7).1,
   by
    have h := (zero_length_section id id stallBus 1 3 36 10 7).2.1
      (by norm_num [stallBus]) (by norm_num) (by norm_num)
    simpa using h,
   (zero_length_section id id stallBus 1 3 0 5 7).2.2 (Or.inl rfl)⟩

/-- Counterexample for C5 as stated: a zero-length segment with speed limit
36 km/h and start speed 0 is not a defended no-op — the solver raises
`ZeroDivisionError` in `_calculate_instant_acceleration`. -/
theorem zero_length_section_cex :
    mkSimulatedSection id id stallBus 5 0 0 36 0 0
      = .error zeroDivMsg := by
  norm_num [mkSimulatedSection, grade_angle, total_resistance, air_resistance,
    inertia, grade_resistance, rolling_resistance, stallBus, AIR_DENSITY,
    GRAVITY, calculate_effective_forces, pyDiv, MAX_ACCELERATION,
    MAX_DECELERATION, calculate_end_speed, accelerate,
    Bind.bind, Except.bind, pure, Except.pure]

/-! Route construction in simulation mode
(`route.py`, `Route._process_simulated_sections`). -/

/-- One input row in simulation mode: latitude, longitude, altitude and a
speed limit in km/h. -/
structure RowSim where
  latitude : ℚ
  longitude : ℚ
  altitude : ℚ
  speedLimitKmh : ℚ
  deriving Repr, DecidableEq

/-- The loop body of `Route._process_simulated_sections`.  Each constructed
section is emitted only after its successor is built, with its `end_speed`
patched to the successor's solved `start_speed`
(`secciones[-1].end_speed = actual_initial_speed` in the source); the
successor's construction receives `next_initial_speed = seccion.end_speed`
(read before the patch) and `cumulative_time = seccion.end_time`. -/
def buildSimGo (geodesic : ℚ × ℚ → ℚ × ℚ → ℚ) (atanDeg sinDeg : ℚ → ℚ)
    (bus : BusParams) (fuel : ℕ) :
    RowSim → List RowSim → ℚ → ℚ → Except String (List SimSection)
  | _, [], _, _ => .ok []
  | r0, r1 :: rest, nextInitialSpeed, cumulativeTime => do
    let dist := geodesic (r0.latitude, r0.longitude) (r1.latitude, r1.longitude)
    let deltaAlt := r1.altitude - r0.altitude
    let s ← mkSimulatedSection atanDeg sinDeg bus fuel dist deltaAlt
      r1.speedLimitKmh nextInitialSpeed cumulativeTime
    let tail ← buildSimGo geodesic atanDeg sinDeg bus fuel r1 rest
      s.endSpeed s.endTime
    match tail with
    | [] => return [s]
    | succ0 :: _ => return ({ s with endSpeed := succ0.startSpeed } :: tail)

/-- Embeds `Route._process_simulated_sections`: the loop starts with
`next_initial_speed = 0` and `cumulative_time = 0`. -/
def buildSimSections (geodesic : ℚ × ℚ → ℚ × ℚ → ℚ) (atanDeg sinDeg : ℚ → ℚ)
    (bus : BusParams) (fuel : ℕ) :
    List RowSim → Except String (List SimSection)
  | [] => .ok []
  | r0 :: rest => buildSimGo geodesic atanDeg sinDeg bus fuel r0 rest 0 0

theorem mkSimulatedSection_startTime (atanDeg sinDeg : ℚ → ℚ)
    (bus : BusParams) (fuel : ℕ)
    (length deltaAltitude speedLimitKmh startSpeed startTime : ℚ)
    (s : SimSection)
    (h : mkSimulatedSection atanDeg sinDeg bus fuel length deltaAltitude
      speedLimitKmh startSpeed startTime = .ok s) :
    s.startTime = startTime := by
  unfold mkSimulatedSection at h
  simp only [] at h
  cases he : calculate_effective_forces
      (total_resistance sinDeg bus ((startSpeed + 0) / 2)
        (if (0 - startTime) ≠ 0 then (0 - startSpeed) / (0 - startTime) else 0)
        (grade_angle atanDeg length deltaAltitude)) bus.totalMass with
  | error e => rw [he] at h; simp [Bind.bind, Except.bind] at h
  | ok eff =>
    obtain ⟨effA, effD⟩ := eff
    rw [he] at h
    simp only [Bind.bind, Except.bind] at h
    cases hc : calculate_end_speed fuel length effA effD
        (speedLimitKmh / (36/10)) startSpeed with
    | error e => rw [hc] at h; simp at h
    | ok r =>
      obtain ⟨s1, e1, d1, a1⟩ := r
      rw [hc] at h
      simp only [pure, Except.pure, Except.ok.injEq] at h
      rw [← h]

/-- The continuity relation between consecutive sections of one route. -/
def contiguous (a b : SimSection) : Prop :=
  a.endSpeed = b.startSpeed ∧ a.endTime = b.startTime

theorem buildSimGo_chain (geodesic : ℚ × ℚ → ℚ × ℚ → ℚ)
    (atanDeg sinDeg : ℚ → ℚ) (bus : BusParams) (fuel : ℕ) :
    ∀ (rows : List RowSim) (r0 : RowSim) (v t : ℚ) (l : List SimSection),
      buildSimGo geodesic atanDeg sinDeg bus fuel r0 rows v t = .ok l →
      l.Chain' contiguous ∧ (∀ x ∈ l.head?, x.startTime = t) := by
  intro rows
  induction rows with
  | nil =>
    intro r0 v t l h
    simp only [buildSimGo, Except.ok.injEq] at h
    subst h
    simp
  | cons r1 rest ih =>
    intro r0 v t l h
    simp only [buildSimGo] at h
    cases hs : mkSimulatedSection atanDeg sinDeg bus fuel
        (geodesic (r0.latitude, r0.longitude) (r1.latitude, r1.longitude))
        (r1.altitude - r0.altitude) r1.speedLimitKmh v t with
    | error e => rw [hs] at h; simp [Bind.bind, Except.bind] at h
    | ok s =>
      rw [hs] at h
      simp only [Bind.bind, Except.bind] at h
      cases htl : buildSimGo geodesic atanDeg sinDeg bus fuel r1 rest
          s.endSpeed s.endTime with
      | error e => rw [htl] at h; simp at h
      | ok tl =>
        rw [htl] at h
        obtain ⟨hchain, hhead⟩ := ih r1 s.endSpeed s.endTime tl htl
        have hst : s.startTime = t :=
          mkSimulatedSection_startTime _ _ _ _ _ _ _ _ _ _ hs
        cases tl with
        | nil =>
          simp only [pure, Except.pure, Except.ok.injEq] at h
          subst h
          exact ⟨by simp [List.chain'_singleton], by simpa using hst⟩
        | cons s0 tl' =>
          simp only [pure, Except.pure, Except.ok.injEq] at h
          subst h
          refine ⟨?_, by simpa using hst⟩
          refine List.Chain'.cons ?_ hchain
          refine ⟨rfl, ?_⟩
          have h0 : s0.startTime = s.endTime := by
            have := hhead s0 (by simp)
            exact this
          exact h0.symm

/-- Claim C4: for every route built in simulation mode, consecutive sections
agree on the shared boundary: the previous section's `end_speed` equals the
next section's (possibly solver-lowered) `start_speed`, and the previous
section's `end_time` equals the next section's `start_time`. -/
theorem route_sections_continuity (geodesic : ℚ × ℚ → ℚ × ℚ → ℚ)
    (atanDeg sinDeg : ℚ → ℚ) (bus : BusParams) (fuel : ℕ)
    (rows : List RowSim) (sections : List SimSection)
    (h : buildSimSections geodesic atanDeg sinDeg bus fuel rows
      = .ok sections) :
    sections.Chain'
      (fun a b => a.endSpeed = b.startSpeed ∧ a.endTime = b.startTime) := by
  have hc : sections.Chain' contiguous := by
    cases rows with
    | nil =>
      simp only [buildSimSections, Except.ok.injEq] at h
      subst h
      simp
    | cons r0 rest =>
      exact (buildSimGo_chain geodesic atanDeg sinDeg bus fuel rest r0 0 0
        sections h).1
  exact hc

/-- The bus of the concrete continuity witness: no rolling resistance, so a
stopped bus stays put and every solve finishes in one loop check. -/
def calmBus : BusParams :=
  { totalMass := 10000, dragCoefficient := 1/2, frontalArea := 10,
    rollingResistanceCoefficient := 0 }

/-- Three identical flat rows with speed limit 0. -/
def cexRows : List RowSim :=
  [{ latitude := 0, longitude := 0, altitude := 0, speedLimitKmh := 0 },
   { latitude := 0, longitude := 1, altitude := 0, speedLimitKmh := 0 },
   { latitude := 0, longitude := 2, altitude := 0, speedLimitKmh := 0 }]

/-- Witness for C4: a concrete two-section simulated route is contiguous. -/
theorem route_sections_continuity_witness :
    List.Chain'
      (fun a b => a.endSpeed = b.startSpeed ∧ a.endTime = b.startTime)
      ([{ speedLimit := 0, startSpeed := 0, endSpeed := 0, startTime := 0,
          endTime := 1000, acceleration := 0, length := 100 },
        { speedLimit := 0, startSpeed := 0, endSpeed := 0, startTime := 1000,
          endTime := 2000, acceleration := 0, length := 100 }] :
        List SimSection) :=
  route_sections_continuity (fun _ _ => 100) id id calmBus 1 cexRows _
    (by norm_num [buildSimSections, buildSimGo, mkSimulatedSection,
      grade_angle, total_resistance, air_resistance, inertia,
      grade_resistance, rolling_resistance, calmBus, AIR_DENSITY, GRAVITY,
      calculate_effective_forces, pyDiv, MAX_ACCELERATION, MAX_DECELERATION,
      calculate_end_speed, decelerate_to_stop, decelerate_to_stop_go,
      set_acceleration, calculate_time, pyMax, pyAbs, cexRows,
      Bind.bind, Except.bind, pure, Except.pure])

/-! Model run loop (`model.py`, `Model._run_electric`).

For an electric bus the `Emissions` calculator is constructed with
`electric=True`, so `calculate_emissions` returns a zero rate for every
pollutant; each section's cached kinematics give it a fixed instantaneous
power and duration (`update_num_travellers` reseeds numpy with a fixed
seed on every call, so the passenger count — and with it every cached
section quantity — is the same on every traversal).  The cost outputs are
rounded pure functions of the accumulated consumption and are not
modelled. -/

/-- Per-pollutant accumulator (g): NOx, CO, HC, PM, CO2. -/
structure EmissionsVec where
  nox : ℚ
  co : ℚ
  hc : ℚ
  pm : ℚ
  co2 : ℚ
  deriving Repr, DecidableEq

def EmissionsVec.zero : EmissionsVec := ⟨0, 0, 0, 0, 0⟩

def EmissionsVec.add (a b : EmissionsVec) : EmissionsVec :=
  ⟨a.nox + b.nox, a.co + b.co, a.hc + b.hc, a.pm + b.pm, a.co2 + b.co2⟩

def EmissionsVec.scale (a : EmissionsVec) (f : ℚ) : EmissionsVec :=
  ⟨a.nox * f, a.co * f, a.hc * f, a.pm * f, a.co2 * f⟩

/-- The cached per-section quantities the electric run loop reads:
`instant_power` (W), duration (s) and geodesic length (m). -/
structure SectionData where
  instantPower : ℚ
  duration : ℚ
  length : ℚ
  deriving Repr, DecidableEq

/-- Embeds `Route` as the run loop sees it.  `Route.__init__` assigns the literal
`10.61` to `length_km`; it is never derived from the sections. -/
structure RouteModel where
  sections : List SectionData
  deriving Repr, DecidableEq

/-- Embeds `Route.length_km`: the constant `10.61`, whatever the input data. -/
def RouteModel.length_km (_r : RouteModel) : ℚ := 1061/100

/-- Embeds `Route._route_duration_time`: sum of `end_time - start_time`. -/
def RouteModel.duration_time (r : RouteModel) : ℚ :=
  (r.sections.map SectionData.duration).sum

/-- The detour correction factor of `Model._run_electric`:
`(route_length_km + distance_of_charging_point) / route_length_km`. -/
def detour_factor (r : RouteModel) (distanceKm : ℚ) : ℚ :=
  (r.length_km + distanceKm) / r.length_km

/-- Embeds `Model._cumulative_consumption_and_emissions_electric`.  For each
section the source first evaluates `sect.section_emissions` — which itself
evaluates `sect.consumption`, driving one battery update, and then returns
all-zero rates for an electric bus — and then evaluates `sect.consumption`
again (a second battery update), accumulating its Wh value and the
battery's fresh `degradation_in_section`. -/
def cumulative_electric (clock : ℕ → ℚ) :
    ElectricalEngine → List SectionData →
    Except String (ℚ × EmissionsVec × ℚ × ElectricalEngine)
  | e, [] => .ok (0, EmissionsVec.zero, 0, e)
  | e, sect :: rest => do
    let (_, e1) ← e.consumption clock sect.instantPower sect.duration
    let sectEmissionRates : EmissionsVec := EmissionsVec.zero
    let (cons, e2) ← e1.consumption clock sect.instantPower sect.duration
    let (wh, em, deg, e3) ← cumulative_electric clock e2 rest
    return (cons.wh + wh,
            EmissionsVec.add (EmissionsVec.scale sectEmissionRates sect.duration) em,
            e2.battery.degradationInSection + deg, e3)

/-- The charging-point parameters and thresholds `Model._run_electric`
reads from its configuration. -/
structure RunParams where
  powerWatts : ℚ
  distanceKm : ℚ
  timeMin : ℚ
  minBatteryCharge : ℚ
  maxBatteryCharge : ℚ
  deriving Repr, DecidableEq

/-- The loop state of `Model._run_electric`. -/
structure RunState where
  engine : ElectricalEngine
  consumption : ℚ
  emissions : EmissionsVec
  batteryDegradation : ℚ
  availability : ℚ
  unavailability : ℚ
  nBuses : ℚ
  deriving Repr, DecidableEq

/-- One iteration of the loop in `Model._run_electric`: charge when the SOC
is below the configured minimum (accruing charging time plus the round trip
to the charging point, and setting `n_buses = 2`), then traverse the route
and accumulate the factor-scaled consumption, emissions and degradation. -/
def run_electric_iter (p : RunParams) (factor : ℚ) (route : RouteModel)
    (clock : ℕ → ℚ) (st : RunState) : Except String RunState := do
  let st ←
    if st.engine.battery.stateOfChargePercent < p.minBatteryCharge then do
      let (chargingTime, b) ← st.engine.battery.charge_in_charging_point clock
        p.powerWatts p.maxBatteryCharge
      pure { st with
        engine := { st.engine with battery := b },
        unavailability := st.unavailability + chargingTime + 2 * (p.timeMin * 60),
        nBuses := 2 }
    else pure st
  let (wh, em, deg, e') ← cumulative_electric clock st.engine route.sections
  return { st with
    engine := e',
    consumption := st.consumption + wh * factor,
    emissions := EmissionsVec.add st.emissions (EmissionsVec.scale em factor),
    batteryDegradation := st.batteryDegradation + deg * factor,
    availability := st.availability + route.duration_time }

/-- The `for` loop of `Model._run_electric`. -/
def run_electric_loop (p : RunParams) (factor : ℚ) (route : RouteModel)
    (clock : ℕ → ℚ) : ℕ → RunState → Except String RunState
  | 0, st => .ok st
  | n+1, st => do
    let st' ← run_electric_iter p factor route clock st
    run_electric_loop p factor route clock n st'

/-- The aggregate outputs of `Model._run_electric` (minus the two cost
figures, which are rounded pure functions of `consumption`). -/
structure RunOutput where
  consumption : ℚ
  emissions : EmissionsVec
  batteryDegradation : ℚ
  availability : ℚ
  unavailability : ℚ
  nBuses : ℚ
  totalTimeBelowMinSoc : ℚ
  deriving Repr, DecidableEq

/-- Packaging of the final loop state into the reported aggregates:
`availability_time_s -= unavailability_time_s` happens after the loop, and
`total_time_below_min_soc` is read from the battery. -/
def mkRunOutput (st : RunState) : RunOutput :=
  { consumption := st.consumption, emissions := st.emissions,
    batteryDegradation := st.batteryDegradation,
    availability := st.availability - st.unavailability,
    unavailability := st.unavailability, nBuses := st.nBuses,
    totalTimeBelowMinSoc := st.engine.battery.totalTimeBelowMinSoc }

/-- Embeds `Model._run_electric`: the detour factor is computed once, before the
loop, from the constant route length. -/
def run_electric (p : RunParams) (route : RouteModel) (clock : ℕ → ℚ)
    (engine : ElectricalEngine) (nIters : ℕ) : Except String RunOutput := do
  let factor := detour_factor route p.distanceKm
  let st0 : RunState :=
    { engine := engine, consumption := 0, emissions := EmissionsVec.zero,
      batteryDegradation := 0, availability := 0, unavailability := 0,
      nBuses := 1 }
  let st ← run_electric_loop p factor route clock nIters st0
  return mkRunOutput st

/-- A one-section route whose only section is 5000 m long. -/
def cexRoute : RouteModel :=
  { sections := [{ instantPower := 1, duration := 3600, length := 5000 }] }

/-- Claim C10: `Route.length_km` is the constant `10.61` for every route —
in particular it is not the sum of the sections' geodesic lengths — and the
run loop's detour correction factor is computed against this constant. -/
theorem route_length_is_constant :
    (∀ r : RouteModel, r.length_km = 1061/100)
    ∧ cexRoute.length_km
        ≠ ((cexRoute.sections.map SectionData.length).sum) / 1000
    ∧ (∀ (r : RouteModel) (d : ℚ),
        detour_factor r d = (1061/100 + d) / (1061/100)) := by
  refine ⟨fun r => rfl, ?_, fun r d => rfl⟩
  norm_num [cexRoute, RouteModel.length_km]

/-- Claim C2 (amended): the detour factor is applied to EVERY iteration's
newly accumulated consumption, emissions and battery degradation — it is
computed once before the loop and multiplied in unconditionally — so an
iteration that begins at or above the minimum-charge threshold is scaled
exactly like one that triggered a charge. -/
theorem iteration_always_scaled (p : RunParams) (factor : ℚ)
    (route : RouteModel) (clock : ℕ → ℚ) (st st' : RunState) :
    (¬ (st.engine.battery.stateOfChargePercent < p.minBatteryCharge) →
      run_electric_iter p factor route clock st = .ok st' →
      ∃ wh em deg e',
        cumulative_electric clock st.engine route.sections
          = .ok (wh, em, deg, e')
        ∧ st'.consumption = st.consumption + wh * factor
        ∧ st'.emissions
            = EmissionsVec.add st.emissions (EmissionsVec.scale em factor)
        ∧ st'.batteryDegradation = st.batteryDegradation + deg * factor
        ∧ st'.nBuses = st.nBuses
        ∧ st'.unavailability = st.unavailability)
    ∧ (st.engine.battery.stateOfChargePercent < p.minBatteryCharge →
      run_electric_iter p factor route clock st = .ok st' →
      ∃ ct b wh em deg e',
        st.engine.battery.charge_in_charging_point clock p.powerWatts
          p.maxBatteryCharge = .ok (ct, b)
        ∧ cumulative_electric clock { st.engine with battery := b }
            route.sections = .ok (wh, em, deg, e')
        ∧ st'.consumption = st.consumption + wh * factor
        ∧ st'.emissions
            = EmissionsVec.add st.emissions (EmissionsVec.scale em factor)
        ∧ st'.batteryDegradation = st.batteryDegradation + deg * factor
        ∧ st'.unavailability = st.unavailability + ct + 2 * (p.timeMin * 60)
        ∧ st'.nBuses = 2) := by
  constructor
  · intro hsoc h
    unfold run_electric_iter at h
    rw [if_neg hsoc] at h
    simp only [Bind.bind, Except.bind, pure, Except.pure] at h
    cases hc : cumulative_electric clock st.engine route.sections with
    | error e => rw [hc] at h; simp at h
    | ok r =>
      obtain ⟨wh, em, deg, e'⟩ := r
      rw [hc] at h
      simp only [Except.ok.injEq] at h
      exact ⟨wh, em, deg, e', rfl, by rw [← h], by rw [← h], by rw [← h],
        by rw [← h], by rw [← h]⟩
  · intro hsoc h
    unfold run_electric_iter at h
    rw [if_pos hsoc] at h
    simp only [Bind.bind, Except.bind, pure, Except.pure] at h
    cases hch : st.engine.battery.charge_in_charging_point clock p.powerWatts
        p.maxBatteryCharge with
    | error e => rw [hch] at h; simp at h
    | ok r =>
      obtain ⟨ct, b⟩ := r
      rw [hch] at h
      simp only [] at h
      cases hc : cumulative_electric clock { st.engine with battery := b }
          route.sections with
      | error e => rw [hc] at h; simp at h
      | ok r2 =>
        obtain ⟨wh, em, deg, e'⟩ := r2
        rw [hc] at h
        simp only [Except.ok.injEq] at h
        exact ⟨ct, b, wh, em, deg, e', rfl, hc, by rw [← h], by rw [← h],
          by rw [← h], by rw [← h], by rw [← h]⟩

/-- The battery of the C2 instances: zero allowed health loss, so the
capacity stays at 100 Ah and the arithmetic stays small. -/
def witBattery : Battery :=
  { voltage := 1, initialCapacityAh := 100, currentCapacityAh := 100,
    maxCycles := 1000, completedCycles := 0, stateOfChargePercent := 50,
    minStateOfHealth := 100, degradationInSection := 0, minBatteryCharge := 0,
    timerStart := none, totalTimeBelowMinSoc := 0, clockIdx := 0 }

def witEngine : ElectricalEngine :=
  { maxPower := 100000, efficiency := 1, battery := witBattery }

/-- A route with one section drawing 1 W for 3600 s (1 Wh per traversal). -/
def witRoute : RouteModel :=
  { sections := [{ instantPower := 1, duration := 3600, length := 1000 }] }

/-- A detour distance equal to the route length, so the factor is 2, and a
minimum-charge threshold of 0, so no charge is ever triggered. -/
def witParams : RunParams :=
  { powerWatts := 3600, distanceKm := 1061/100, timeMin := 5,
    minBatteryCharge := 0, maxBatteryCharge := 80 }

def witState : RunState :=
  { engine := witEngine, consumption := 0, emissions := EmissionsVec.zero,
    batteryDegradation := 0, availability := 0, unavailability := 0,
    nBuses := 1 }

/-- The loop state after one iteration of the C2 instance: two engine calls
per section discharge 1 Ah each, and the accumulators take the
factor-2-scaled values. -/
def witResult : RunState :=
  { engine :=
      { maxPower := 100000, efficiency := 1,
        battery :=
          { voltage := 1, initialCapacityAh := 100, currentCapacityAh := 100,
            maxCycles := 1000, completedCycles := 105021/5000000,
            stateOfChargePercent := 48, minStateOfHealth := 100,
            degradationInSection := 1/100000, minBatteryCharge := 0,
            timerStart := none, totalTimeBelowMinSoc := 0, clockIdx := 0 } },
    consumption := 2, emissions := ⟨0, 0, 0, 0, 0⟩,
    batteryDegradation := 1/50000, availability := 3600,
    unavailability := 0, nBuses := 1 }

/-- Witness for C2 (amended) at the concrete above-threshold iteration. -/
theorem iteration_always_scaled_witness :
    ∃ wh em deg e',
      cumulative_electric zeroClock witState.engine witRoute.sections
        = .ok (wh, em, deg, e')
      ∧ witResult.consumption = witState.consumption + wh * 2
      ∧ witResult.emissions
          = EmissionsVec.add witState.emissions (EmissionsVec.scale em 2)
      ∧ witResult.batteryDegradation = witState.batteryDegradation + deg * 2
      ∧ witResult.nBuses = witState.nBuses
      ∧ witResult.unavailability = witState.unavailability :=
  (iteration_always_scaled witParams 2 witRoute zeroClock witState witResult).1
    (by norm_num [witState, witEngine, witBattery, witParams])
    (by norm_num [run_electric_iter, cumulative_electric,
      ElectricalEngine.consumption, ElectricalEngine.adjust_power,
      Battery.update_soc_and_degradation, Battery.compute_new_soc,
      Battery.get_soc_in_ah, pyMin, pyDiv, Battery.calculate_current,
      Battery.apply_degradation, Battery.soc_degradation_factor,
      Battery.is_charging, Battery.calculate_charging_degradation,
      Battery.calculate_discharging_degradation,
      Battery.electric_current_degradation_factor, pyAbs,
      Battery.increase_completed_cycles, Battery.degradation_rate,
      Battery.state_of_health, Battery.check_soc_under_minimum,
      EmissionsVec.zero, EmissionsVec.add, EmissionsVec.scale,
      RouteModel.duration_time, witState, witEngine, witBattery, witParams,
      witRoute, witResult, zeroClock,
      Bind.bind, Except.bind, pure, Except.pure])

/-- Counterexample for C2 as stated: a single-iteration run that starts at
or above the minimum-charge threshold (so no charge occurs) still
accumulates `factor * 1 = 2` Wh, not the unscaled 1 Wh its traversal
produced. -/
theorem run_scaling_cex :
    ¬ (witState.engine.battery.stateOfChargePercent
        < witParams.minBatteryCharge)
    ∧ (cumulative_electric zeroClock witEngine witRoute.sections).map
        (fun r => r.1) = .ok 1
    ∧ detour_factor witRoute witParams.distanceKm = 2
    ∧ (run_electric witParams witRoute zeroClock witEngine 1).map
        RunOutput.consumption = .ok 2
    ∧ (2 : ℚ) ≠ 1 := by
  refine ⟨by norm_num [witState, witEngine, witBattery, witParams], ?_, ?_, ?_, by norm_num⟩
  · norm_num [cumulative_electric, ElectricalEngine.consumption,
      ElectricalEngine.adjust_power, Battery.update_soc_and_degradation,
      Battery.compute_new_soc, Battery.get_soc_in_ah, pyMin, pyDiv,
      Battery.calculate_current, Battery.apply_degradation,
      Battery.soc_degradation_factor, Battery.is_charging,
      Battery.calculate_charging_degradation,
      Battery.calculate_discharging_degradation,
      Battery.electric_current_degradation_factor, pyAbs,
      Battery.increase_completed_cycles, Battery.degradation_rate,
      Battery.state_of_health, Battery.check_soc_under_minimum,
      EmissionsVec.zero, witEngine, witBattery, witRoute, zeroClock,
      Except.map, Bind.bind, Except.bind, pure, Except.pure]
  · norm_num [detour_factor, RouteModel.length_km, witParams]
  · norm_num [run_electric, run_electric_loop, run_electric_iter,
      detour_factor, RouteModel.length_km, mkRunOutput,
      cumulative_electric, ElectricalEngine.consumption,
      ElectricalEngine.adjust_power, Battery.update_soc_and_degradation,
      Battery.compute_new_soc, Battery.get_soc_in_ah, pyMin, pyDiv,
      Battery.calculate_current, Battery.apply_degradation,
      Battery.soc_degradation_factor, Battery.is_charging,
      Battery.calculate_charging_degradation,
      Battery.calculate_discharging_degradation,
      Battery.electric_current_degradation_factor, pyAbs,
      Battery.increase_completed_cycles, Battery.degradation_rate,
      Battery.state_of_health, Battery.check_soc_under_minimum,
      EmissionsVec.zero, EmissionsVec.add, EmissionsVec.scale,
      RouteModel.duration_time, witEngine, witBattery, witParams, witRoute,
      zeroClock, Except.map, Bind.bind, Except.bind, pure, Except.pure]

/-! Determinism up to the wall clock (claim C8).

`check_soc_under_minimum` reads `time.time()`; everything else in the run
is clock-free.  `eraseTimer` forgets the wall-clock-dependent fields, and
the lemmas below show every operation's result modulo `eraseTimer` is
independent of the clock stream. -/

/-- Forget the wall-clock-dependent battery fields. -/
def Battery.eraseTimer (b : Battery) : Battery :=
  { b with timerStart := none, totalTimeBelowMinSoc := 0, clockIdx := 0 }

def ElectricalEngine.eraseTimer (e : ElectricalEngine) : ElectricalEngine :=
  { e with battery := e.battery.eraseTimer }

def RunState.eraseTimer (st : RunState) : RunState :=
  { st with engine := st.engine.eraseTimer }

theorem compute_new_soc_eraseTimer (b : Battery) (ah : ℚ) :
    b.eraseTimer.compute_new_soc ah = b.compute_new_soc ah := by
  cases b; rfl

theorem calculate_current_eraseTimer (b : Battery)
    (ahT tS pw : Option ℚ) :
    b.eraseTimer.calculate_current ahT tS pw
      = b.calculate_current ahT tS pw := by
  cases b; rfl

theorem calculate_time_to_charge_eraseTimer (b : Battery) (p d : ℚ) :
    b.eraseTimer.calculate_time_to_charge p d
      = b.calculate_time_to_charge p d := by
  cases b; rfl

theorem apply_degradation_eraseTimer (b : Battery) (u c : ℚ) :
    b.eraseTimer.apply_degradation u c
      = (b.apply_degradation u c).map Battery.eraseTimer := by
  cases b with
  | mk voltage initCap cap maxC cyc soc msh dis mbc ts tt ci =>
    by_cases hm : maxC = 0 <;>
      simp [Battery.apply_degradation, Battery.increase_completed_cycles,
        Battery.state_of_health, Battery.degradation_rate, pyDiv,
        Battery.eraseTimer, Except.map, Bind.bind, Except.bind, pure,
        Except.pure, hm]

theorem check_soc_eraseTimer (b : Battery) (clock : ℕ → ℚ) (s : ℚ) :
    (b.check_soc_under_minimum clock s).eraseTimer = b.eraseTimer := by
  cases b
  unfold Battery.check_soc_under_minimum
  split <;> split <;> rfl

theorem update_eraseTimer (b : Battery) (clock : ℕ → ℚ) (ah t : ℚ) :
    (b.update_soc_and_degradation clock ah t).map Battery.eraseTimer
      = (b.eraseTimer.update_soc_and_degradation zeroClock ah t).map
          Battery.eraseTimer := by
  unfold Battery.update_soc_and_degradation
  rw [compute_new_soc_eraseTimer, calculate_current_eraseTimer]
  simp only [apply_degradation_eraseTimer]
  cases hu : b.compute_new_soc ah with
  | error e => simp [Bind.bind, Except.bind, Except.map]
  | ok u =>
    simp only [Bind.bind, Except.bind]
    cases hc : b.calculate_current (some ah) (some t) none with
    | error e => simp [Except.map]
    | ok c =>
      simp only []
      cases hd : b.apply_degradation u c with
      | error e => simp [Except.map, Bind.bind, Except.bind]
      | ok b2 =>
        simp only [Except.map, Bind.bind, Except.bind, pure, Except.pure]
        rw [check_soc_eraseTimer, check_soc_eraseTimer]
        cases b2; rfl

theorem update_erase_congr (b1 b2 : Battery) (clock1 clock2 : ℕ → ℚ)
    (ah t : ℚ) (h : b1.eraseTimer = b2.eraseTimer) :
    (b1.update_soc_and_degradation clock1 ah t).map Battery.eraseTimer
      = (b2.update_soc_and_degradation clock2 ah t).map Battery.eraseTimer := by
  rw [update_eraseTimer b1 clock1, update_eraseTimer b2 clock2, h]

theorem charge_eraseTimer (b : Battery) (clock : ℕ → ℚ) (p d : ℚ) :
    (b.charge_in_charging_point clock p d).map (fun r => (r.1, r.2.eraseTimer))
      = (b.eraseTimer.charge_in_charging_point zeroClock p d).map
          (fun r => (r.1, r.2.eraseTimer)) := by
  unfold Battery.charge_in_charging_point
  rw [calculate_time_to_charge_eraseTimer, calculate_current_eraseTimer]
  cases ht : b.calculate_time_to_charge p d with
  | error e => simp [Bind.bind, Except.bind, Except.map]
  | ok ts =>
    simp only [Bind.bind, Except.bind]
    cases hc : b.calculate_current none none (some p) with
    | error e => simp [Except.map]
    | ok cur =>
      simp only []
      have hupd := update_erase_congr b b.eraseTimer clock zeroClock
        (-(cur * (ts / 3600))) ts (by cases b; rfl)
      cases hu1 : b.update_soc_and_degradation clock (-(cur * (ts / 3600))) ts with
      | error e =>
        rw [hu1] at hupd
        cases hu2 : b.eraseTimer.update_soc_and_degradation zeroClock
            (-(cur * (ts / 3600))) ts with
        | error e2 =>
          rw [hu2] at hupd
          simp only [Except.map, Except.error.injEq] at hupd
          simp [Except.map, hupd]
        | ok b2 => rw [hu2] at hupd; simp [Except.map] at hupd
      | ok b1 =>
        rw [hu1] at hupd
        cases hu2 : b.eraseTimer.update_soc_and_degradation zeroClock
            (-(cur * (ts / 3600))) ts with
        | error e2 => rw [hu2] at hupd; simp [Except.map] at hupd
        | ok b2 =>
          rw [hu2] at hupd
          simp only [Except.map, Except.ok.injEq] at hupd
          simp [Except.map, pure, Except.pure, hupd]

theorem charge_erase_congr (b1 b2 : Battery) (clock1 clock2 : ℕ → ℚ)
    (p d : ℚ) (h : b1.eraseTimer = b2.eraseTimer) :
    (b1.charge_in_charging_point clock1 p d).map (fun r => (r.1, r.2.eraseTimer))
      = (b2.charge_in_charging_point clock2 p d).map
          (fun r => (r.1, r.2.eraseTimer)) := by
  rw [charge_eraseTimer b1 clock1, charge_eraseTimer b2 clock2, h]

theorem consumption_erase_congr (e1 e2 : ElectricalEngine)
    (clock1 clock2 : ℕ → ℚ) (p t : ℚ)
    (h : e1.eraseTimer = e2.eraseTimer) :
    (e1.consumption clock1 p t).map (fun r => (r.1, r.2.eraseTimer))
      = (e2.consumption clock2 p t).map (fun r => (r.1, r.2.eraseTimer)) := by
  cases e1 with
  | mk mp1 eff1 b1 =>
    cases e2 with
    | mk mp2 eff2 b2 =>
      simp only [ElectricalEngine.eraseTimer, ElectricalEngine.mk.injEq] at h
      obtain ⟨hmp, heff, hb⟩ := h
      subst hmp; subst heff
      unfold ElectricalEngine.consumption ElectricalEngine.adjust_power
      simp only []
      have hv : b1.voltage = b2.voltage := by
        have := congrArg Battery.voltage hb
        cases b1; cases b2; simpa [Battery.eraseTimer] using this
      rw [hv]
      cases hdv : pyDiv ((if p ≤ mp1 then p * eff1 else mp1 * eff1) * (t / 3600))
          b2.voltage with
      | error e => simp [Bind.bind, Except.bind, Except.map]
      | ok ah =>
        simp only [Bind.bind, Except.bind]
        have hupd := update_erase_congr b1 b2 clock1 clock2 ah t hb
        cases hu1 : b1.update_soc_and_degradation clock1 ah t with
        | error e =>
          rw [hu1] at hupd
          cases hu2 : b2.update_soc_and_degradation clock2 ah t with
          | error e2 =>
            rw [hu2] at hupd
            simp only [Except.map, Except.error.injEq] at hupd
            simp [Except.map, hupd]
          | ok bb => rw [hu2] at hupd; simp [Except.map] at hupd
        | ok bb1 =>
          rw [hu1] at hupd
          cases hu2 : b2.update_soc_and_degradation clock2 ah t with
          | error e2 => rw [hu2] at hupd; simp [Except.map] at hupd
          | ok bb2 =>
            rw [hu2] at hupd
            simp only [Except.map, Except.ok.injEq] at hupd
            simp [Except.map, pure, Except.pure, ElectricalEngine.eraseTimer,
              hupd]

theorem exceptMap_bind_congr {α β γ δ : Type}
    (f : α → γ) (g : β → δ)
    (m1 m2 : Except String α) (k1 k2 : α → Except String β)
    (hm : m1.map f = m2.map f)
    (hk : ∀ a1 a2, f a1 = f a2 → (k1 a1).map g = (k2 a2).map g) :
    (m1 >>= k1).map g = (m2 >>= k2).map g := by
  cases m1 with
  | error e =>
    cases m2 with
    | error e2 =>
      simp only [Except.map, Except.error.injEq] at hm
      simp [Bind.bind, Except.bind, Except.map, hm]
    | ok a => simp [Except.map] at hm
  | ok a1 =>
    cases m2 with
    | error e => simp [Except.map] at hm
    | ok a2 =>
      simp only [Except.map, Except.ok.injEq] at hm
      simp only [Bind.bind, Except.bind]
      exact hk a1 a2 hm

theorem eraseTimer_battery (e : ElectricalEngine) :
    e.eraseTimer.battery = e.battery.eraseTimer := by
  cases e; rfl

theorem eraseTimer_degradationInSection (b : Battery) :
    b.eraseTimer.degradationInSection = b.degradationInSection := by
  cases b; rfl

theorem eraseTimer_soc (b : Battery) :
    b.eraseTimer.stateOfChargePercent = b.stateOfChargePercent := by
  cases b; rfl

theorem cumulative_erase_congr (clock1 clock2 : ℕ → ℚ)
    (sections : List SectionData) :
    ∀ (e1 e2 : ElectricalEngine), e1.eraseTimer = e2.eraseTimer →
    (cumulative_electric clock1 e1 sections).map
        (fun r => (r.1, r.2.1, r.2.2.1, r.2.2.2.eraseTimer))
      = (cumulative_electric clock2 e2 sections).map
        (fun r => (r.1, r.2.1, r.2.2.1, r.2.2.2.eraseTimer)) := by
  induction sections with
  | nil =>
    intro e1 e2 h
    simp [cumulative_electric, Except.map, h]
  | cons sect rest ih =>
    intro e1 e2 h
    simp only [cumulative_electric]
    apply exceptMap_bind_congr (fun r => (r.1, r.2.eraseTimer)) _ _ _ _ _
      (consumption_erase_congr e1 e2 clock1 clock2 sect.instantPower
        sect.duration h)
    intro a1 a2 ha
    obtain ⟨c1, ee1⟩ := a1
    obtain ⟨c2, ee2⟩ := a2
    simp only [Prod.mk.injEq] at ha
    obtain ⟨hcq, hee⟩ := ha
    subst hcq
    apply exceptMap_bind_congr (fun r => (r.1, r.2.eraseTimer)) _ _ _ _ _
      (consumption_erase_congr ee1 ee2 clock1 clock2 sect.instantPower
        sect.duration hee)
    intro b1 b2 hb2
    obtain ⟨cc1, fe1⟩ := b1
    obtain ⟨cc2, fe2⟩ := b2
    simp only [Prod.mk.injEq] at hb2
    obtain ⟨hccq, hfe⟩ := hb2
    subst hccq
    apply exceptMap_bind_congr
      (fun r => (r.1, r.2.1, r.2.2.1, r.2.2.2.eraseTimer)) _ _ _ _ _
      (ih fe1 fe2 hfe)
    intro r1 r2 hr
    obtain ⟨wh1, em1, dg1, e31⟩ := r1
    obtain ⟨wh2, em2, dg2, e32⟩ := r2
    simp only [Prod.mk.injEq] at hr
    obtain ⟨hwh, hem, hdg, he3⟩ := hr
    subst hwh; subst hem; subst hdg
    have hdeg : fe1.battery.degradationInSection
        = fe2.battery.degradationInSection := by
      have h' := congrArg (fun ee => ee.battery.degradationInSection) hfe
      simpa [eraseTimer_battery, eraseTimer_degradationInSection] using h'
    simp [Except.map, pure, Except.pure, hdeg, he3]

theorem iter_erase_congr (p : RunParams) (factor : ℚ) (route : RouteModel)
    (clock1 clock2 : ℕ → ℚ) (st1 st2 : RunState)
    (h : st1.eraseTimer = st2.eraseTimer) :
    (run_electric_iter p factor route clock1 st1).map RunState.eraseTimer
      = (run_electric_iter p factor route clock2 st2).map
          RunState.eraseTimer := by
  obtain ⟨e1, cons1, em1, deg1, av1, un1, nb1⟩ := st1
  obtain ⟨e2, cons2, em2, deg2, av2, un2, nb2⟩ := st2
  simp only [RunState.eraseTimer, RunState.mk.injEq] at h
  obtain ⟨he, hcons, hem, hdeg, hav, hun, hnb⟩ := h
  subst hcons; subst hem; subst hdeg; subst hav; subst hun; subst hnb
  obtain ⟨mp1, eff1, b1⟩ := e1
  obtain ⟨mp2, eff2, b2⟩ := e2
  simp only [ElectricalEngine.eraseTimer, ElectricalEngine.mk.injEq] at he
  obtain ⟨hmp, heff, hbb⟩ := he
  subst hmp; subst heff
  have hsoc : b1.stateOfChargePercent = b2.stateOfChargePercent := by
    have h' := congrArg Battery.stateOfChargePercent hbb
    simpa [eraseTimer_soc] using h'
  unfold run_electric_iter
  simp only [Bind.bind, Except.bind, pure, Except.pure]
  rw [hsoc]
  by_cases hcond : b2.stateOfChargePercent < p.minBatteryCharge
  · rw [if_pos hcond, if_pos hcond]
    apply exceptMap_bind_congr (fun r => (r.1, r.2.eraseTimer))
      RunState.eraseTimer _ _ _ _
      (charge_erase_congr b1 b2 clock1 clock2 p.powerWatts
        p.maxBatteryCharge hbb)
    intro a1 a2 ha
    obtain ⟨ct1, bb1⟩ := a1
    obtain ⟨ct2, bb2⟩ := a2
    simp only [Prod.mk.injEq] at ha
    obtain ⟨hct, hbb2⟩ := ha
    subst hct
    apply exceptMap_bind_congr
      (fun r => (r.1, r.2.1, r.2.2.1, r.2.2.2.eraseTimer))
      RunState.eraseTimer _ _ _ _
      (cumulative_erase_congr clock1 clock2 route.sections _ _
        (by simp [ElectricalEngine.eraseTimer, hbb2]))
    intro r1 r2 hr
    obtain ⟨wh1, emv1, dg1, fe1⟩ := r1
    obtain ⟨wh2, emv2, dg2, fe2⟩ := r2
    simp only [Prod.mk.injEq] at hr
    obtain ⟨hwh, hemv, hdg, hfe⟩ := hr
    subst hwh; subst hemv; subst hdg
    simp [Except.map, RunState.eraseTimer, hfe]
  · rw [if_neg hcond, if_neg hcond]
    apply exceptMap_bind_congr
      (fun r => (r.1, r.2.1, r.2.2.1, r.2.2.2.eraseTimer))
      RunState.eraseTimer _ _ _ _
      (cumulative_erase_congr clock1 clock2 route.sections _ _
        (by simp [ElectricalEngine.eraseTimer, hbb]))
    intro r1 r2 hr
    obtain ⟨wh1, emv1, dg1, fe1⟩ := r1
    obtain ⟨wh2, emv2, dg2, fe2⟩ := r2
    simp only [Prod.mk.injEq] at hr
    obtain ⟨hwh, hemv, hdg, hfe⟩ := hr
    subst hwh; subst hemv; subst hdg
    simp [Except.map, RunState.eraseTimer, hfe]

theorem loop_erase_congr (p : RunParams) (factor : ℚ) (route : RouteModel)
    (clock1 clock2 : ℕ → ℚ) :
    ∀ (n : ℕ) (st1 st2 : RunState), st1.eraseTimer = st2.eraseTimer →
      (run_electric_loop p factor route clock1 n st1).map RunState.eraseTimer
        = (run_electric_loop p factor route clock2 n st2).map
            RunState.eraseTimer := by
  intro n
  induction n with
  | zero =>
    intro st1 st2 h
    simp [run_electric_loop, Except.map, h]
  | succ n ih =>
    intro st1 st2 h
    simp only [run_electric_loop]
    apply exceptMap_bind_congr RunState.eraseTimer RunState.eraseTimer _ _ _ _
      (iter_erase_congr p factor route clock1 clock2 st1 st2 h)
    intro s1 s2 hs
    exact ih s1 s2 hs

/-- The aggregate outputs other than `total_time_below_min_soc`. -/
def RunOutput.observables (o : RunOutput) :
    ℚ × EmissionsVec × ℚ × ℚ × ℚ × ℚ :=
  (o.consumption, o.emissions, o.batteryDegradation, o.availability,
   o.unavailability, o.nBuses)

/-- Claim C8 (amended): two runs with identical configuration, data and
initial battery produce identical aggregate outputs for every output EXCEPT
`total_time_below_min_soc` — consumption, emissions, degradation,
availability, unavailability and bus count do not depend on the wall-clock
stream.  `total_time_below_min_soc` itself is wall-clock time measured with
`time.time()` and genuinely differs between executions (see the
counterexample). -/
theorem run_outputs_clock_independent (p : RunParams) (route : RouteModel)
    (e : ElectricalEngine) (n : ℕ) (clock1 clock2 : ℕ → ℚ) :
    (run_electric p route clock1 e n).map RunOutput.observables
      = (run_electric p route clock2 e n).map RunOutput.observables := by
  unfold run_electric
  apply exceptMap_bind_congr RunState.eraseTimer RunOutput.observables _ _ _ _
    (loop_erase_congr p (detour_factor route p.distanceKm) route clock1 clock2
      n _ _ rfl)
  intro s1 s2 hs
  cases s1 with
  | mk se1 scons1 sem1 sdeg1 sav1 sun1 snb1 =>
    cases s2 with
    | mk se2 scons2 sem2 sdeg2 sav2 sun2 snb2 =>
      simp only [RunState.eraseTimer, RunState.mk.injEq] at hs
      obtain ⟨-, hscons, hsem, hsdeg, hsav, hsun, hsnb⟩ := hs
      subst hscons; subst hsem; subst hsdeg; subst hsav; subst hsun; subst hsnb
      simp [Except.map, pure, Except.pure, mkRunOutput, RunOutput.observables]

/-- The battery of the C8 instance: starts at 40%, timer threshold 30%. -/
def cexRunBattery : Battery :=
  { voltage := 1, initialCapacityAh := 100, currentCapacityAh := 100,
    maxCycles := 1000, completedCycles := 0, stateOfChargePercent := 40,
    minStateOfHealth := 100, degradationInSection := 0, minBatteryCharge := 30,
    timerStart := none, totalTimeBelowMinSoc := 0, clockIdx := 0 }

def cexRunEngine : ElectricalEngine :=
  { maxPower := 100000, efficiency := 1, battery := cexRunBattery }

/-- One section drawing 6 W for 3600 s: each traversal discharges the
battery by 12 Ah (two engine calls of 6 Ah), crossing the 30% line. -/
def cexRunRoute : RouteModel :=
  { sections := [{ instantPower := 6, duration := 3600, length := 1000 }] }

def cexRunParams : RunParams :=
  { powerWatts := 3600, distanceKm := 0, timeMin := 5,
    minBatteryCharge := 30, maxBatteryCharge := 80 }

/-- A wall clock that reads `i` at the `i`-th call. -/
def natClock : ℕ → ℚ := fun i => (i : ℚ)

/-- A wall clock that reads `7 i` at the `i`-th call. -/
def sevenClock : ℕ → ℚ := fun i => 7 * (i : ℚ)

/-- Counterexample for C8 as stated: two runs of the same two-iteration
simulation with identical configuration and data report different
`total_time_below_min_soc` values, because that output is measured with
`time.time()`: the SOC drops under 30% during iteration 1 (the timer
starts) and recovers when iteration 2 charges (the timer stops), so the
reported time is the wall-clock gap between the two reads. -/
theorem run_wall_clock_cex :
    (run_electric cexRunParams cexRunRoute natClock cexRunEngine 2).map
        RunOutput.totalTimeBelowMinSoc = .ok 1
    ∧ (run_electric cexRunParams cexRunRoute sevenClock cexRunEngine 2).map
        RunOutput.totalTimeBelowMinSoc = .ok 7
    ∧ (1 : ℚ) ≠ 7 := by
  refine ⟨?_, ?_, by norm_num⟩ <;>
    norm_num [run_electric, run_electric_loop, run_electric_iter,
      detour_factor, RouteModel.length_km, mkRunOutput,
      cumulative_electric, ElectricalEngine.consumption,
      ElectricalEngine.adjust_power, Battery.update_soc_and_degradation,
      Battery.compute_new_soc, Battery.get_soc_in_ah, pyMin, pyDiv,
      Battery.calculate_current, Battery.apply_degradation,
      Battery.soc_degradation_factor, Battery.is_charging,
      Battery.calculate_charging_degradation,
      Battery.calculate_discharging_degradation,
      Battery.electric_current_degradation_factor, pyAbs,
      Battery.increase_completed_cycles, Battery.degradation_rate,
      Battery.state_of_health, Battery.check_soc_under_minimum,
      Battery.charge_in_charging_point, Battery.calculate_time_to_charge,
      EmissionsVec.zero, EmissionsVec.add, EmissionsVec.scale,
      RouteModel.duration_time, cexRunEngine, cexRunBattery, cexRunParams,
      cexRunRoute, natClock, sevenClock,
      Except.map, Bind.bind, Except.bind, pure, Except.pure]
